import Mathlib

/-!
Shallow embedding of `src/uber.py`, a project bootstrap/run helper with two
subcommands (`info`, `run`).  JSON configuration values are modelled by the
inductive `JSON`; the dynamic Python `dict.get` / `.items()` accesses are
modelled as `Except`-valued operations that can raise `AttributeError` or
`TypeError` exactly where the Python code would.  External side effects
(creating a virtual environment, probing and installing packages with pip,
launching the project) are recorded as an `Event` trace; their success or
failure is supplied by a `World` of oracles, one per kind of child process.
-/

namespace Uber

/-- JSON values as produced by the Python `json.load`.  Object fields keep
the key order of the file (Python dicts preserve insertion order); `json.load` never
yields duplicate keys, so first-match lookup below agrees with Python. -/
inductive JSON where
  | null
  | bool (b : Bool)
  | num (n : Int)
  | str (s : String)
  | arr (elems : List JSON)
  | obj (fields : List (String × JSON))

/-- Python truthiness of a JSON-shaped value (`if not x`, `if x`). -/
def truthy : JSON → Bool
  | .null => false
  | .bool b => b
  | .num n => n != 0
  | .str s => s != ""
  | .arr elems => !elems.isEmpty
  | .obj fields => !fields.isEmpty

/-- Truthiness of a possibly-absent config (`read_*_config` returns `None`
on failure; the Python `if not cfg` treats `None` and falsy values alike). -/
def truthyOpt : Option JSON → Bool
  | none => false
  | some j => truthy j

/-- The dynamic errors the source can raise on off-schema configs. -/
inductive PyExc where
  | attributeError
  | typeError
deriving DecidableEq, Repr

/-- First-match field lookup in the field list of an object. -/
def lookupField : List (String × JSON) → String → Option JSON
  | [], _ => none
  | (k, v) :: rest, key => if k = key then some v else lookupField rest key

/-- Python `receiver.get(key, dflt)`: defaulted lookup on a dict, an
`AttributeError` on any non-dict receiver. -/
def pyGet (j : JSON) (key : String) (dflt : JSON) : Except PyExc JSON :=
  match j with
  | .obj fields => .ok ((lookupField fields key).getD dflt)
  | _ => .error .attributeError

/-- Python `receiver.get(key, dflt)` where the receiver may be `None`
(a failed config load): `None.get(...)` raises `AttributeError`. -/
def pyGetOpt (j : Option JSON) (key : String) (dflt : JSON) : Except PyExc JSON :=
  match j with
  | none => .error .attributeError
  | some v => pyGet v key dflt

/-- Python `receiver.items()`: the field list of a dict, an `AttributeError`
otherwise. -/
def pyObjItems (j : JSON) : Except PyExc (List (String × JSON)) :=
  match j with
  | .obj fields => .ok fields
  | _ => .error .typeError

/-- Python `for k in receiver` over a dict: its keys in insertion order.
(Python would also iterate a string or a list here; those off-schema shapes
are modelled as a `TypeError` and no claim exercises them.) -/
def pyIterKeys (j : JSON) : Except PyExc (List String) :=
  match j with
  | .obj fields => .ok (fields.map Prod.fst)
  | _ => .error .typeError

/-- The diagnostic lines `run_command` can print (uber.py lines 76-149).
Constructors carry exactly the data interpolated into the message. -/
inductive Msg where
  | infoSkipTestVenv
  | creatingEnv (venv : String)
  | createdEnv (venv : String)
  | errCreateEnv (venv : String)
  | infoAlreadyInstalled (pkg venv : String)
  | installing (pkg venv : String)
  | installedOk (pkg venv : String)
  | errInstall (pkg venv : String)
  | errRunProject
  | errNoMainVenv
deriving DecidableEq, Repr

/-- Observable actions of `run_command`, in program order: each
`subprocess.run` invocation and each printed line.  The pip executable and
activation-script paths are fixed functions of the venv name and platform
(uber.py lines 97, 132, 140), so events are keyed by the venv name. -/
inductive Event where
  | createEnv (venv : String)
  | pipShow (venv pkg : String)
  | pipInstall (venv pkg : String) (pinnedVersion : Option JSON)
  | launch (windows : Bool) (mainVenv : String) (source : JSON)
  | msg (m : Msg)

/-- Outcomes of the external child processes: one oracle per kind of
`subprocess.run` call (`check=True` raises `CalledProcessError` exactly when
the oracle answers `false`). -/
structure World where
  isWindows : Bool
  createEnvOk : String → Bool
  pipShowOk : String → String → Bool
  installOk : String → String → Option JSON → Bool
  launchOk : String → JSON → Bool

/-- The values `run_command` reads from the two configs before its loops
(uber.py lines 67-73).  The `ignore.warnings` flag is read there but never
used afterwards, so it is not retained. -/
structure RunConfigView where
  venvConfigs : JSON
  dependencies : JSON
  projectSource : JSON
  ignoreErrorsFlag : Bool
  ignoreInfoFlag : Bool

/-- uber.py lines 67-73: the configuration reads at the top of
`run_command`.  `uber_config` may be `None` (failed load), in which case
`uber_config.get("ignore", {})` raises `AttributeError`. -/
def readRunConfig (pc : JSON) (uber : Option JSON) : Except PyExc RunConfigView :=
  match pyGet pc "venv-configs" (.obj []) with
  | .error e => .error e
  | .ok venvConfigs =>
    match pyGet pc "dependencies" (.obj []) with
    | .error e => .error e
    | .ok dependencies =>
      match pyGet pc "project-info" (.obj []) with
      | .error e => .error e
      | .ok projectInfo =>
        match pyGet projectInfo "project-source" (.str "main.py") with
        | .error e => .error e
        | .ok projectSource =>
          match pyGetOpt uber "ignore" (.obj []) with
          | .error e => .error e
          | .ok ignore =>
            match pyGet ignore "warnings" (.bool false) with
            | .error e => .error e
            | .ok _ignoreWarnings =>
              match pyGet ignore "errors" (.bool false) with
              | .error e => .error e
              | .ok ignoreErrors =>
                match pyGet ignore "info" (.bool false) with
                | .error e => .error e
                | .ok ignoreInfo =>
                  .ok ⟨venvConfigs, dependencies, projectSource,
                       truthy ignoreErrors, truthy ignoreInfo⟩

/-- uber.py lines 76-89: the environment-creation loop.  Returns the events
emitted and `true` when the loop ran to completion, `false` when a creation
failure made `run_command` return (the `return` in the `except` branch). -/
def createLoop (w : World) (ignoreInfo ignoreErrors : Bool) : List String → List Event × Bool
  | [] => ([], true)
  | venvName :: rest =>
    if venvName = "test-venv" then
      let skipMsg := if ignoreInfo then [] else [Event.msg .infoSkipTestVenv]
      let step := createLoop w ignoreInfo ignoreErrors rest
      (skipMsg ++ step.1, step.2)
    else
      let pre := [Event.msg (.creatingEnv venvName), Event.createEnv venvName]
      if w.createEnvOk venvName then
        let step := createLoop w ignoreInfo ignoreErrors rest
        (pre ++ Event.msg (.createdEnv venvName) :: step.1, step.2)
      else
        (pre ++ (if ignoreErrors then [] else [Event.msg (.errCreateEnv venvName)]), false)

/-- How the dependency loop of uber.py lines 92-121 finished. -/
inductive LoopExit where
  | completed
  | aborted
  | raised (e : PyExc)
deriving DecidableEq, Repr

/-- uber.py line 110-113: a truthy `version` field pins `pkg==version`. -/
def pinnedOf (verJ : JSON) : Option JSON := if truthy verJ then some verJ else none

/-- uber.py lines 92-121: the dependency-installation loop over
`dependencies.items()`.  `venvNames` are the keys of `venv-configs` (for the
`venv_name in venv_configs` membership test; a list- or dict-valued `venv`
field would be unhashable there, hence `TypeError`).  `aborted` is the
`return` in the install `except` branch. -/
def installLoop (w : World) (venvNames : List String) (ignoreInfo ignoreErrors : Bool) :
    List (String × JSON) → List Event × LoopExit
  | [] => ([], .completed)
  | (pkg, details) :: rest =>
    match pyGet details "venv" .null with
    | .error e => ([], .raised e)
    | .ok venvJ =>
      match pyGet details "version" .null with
      | .error e => ([], .raised e)
      | .ok verJ =>
        if truthy venvJ = false then installLoop w venvNames ignoreInfo ignoreErrors rest
        else
          match venvJ with
          | .str venvName =>
            if venvNames.contains venvName then
              let probe := [Event.pipShow venvName pkg]
              if w.pipShowOk venvName pkg then
                let infoMsg :=
                  if ignoreInfo then [] else [Event.msg (.infoAlreadyInstalled pkg venvName)]
                let step := installLoop w venvNames ignoreInfo ignoreErrors rest
                (probe ++ infoMsg ++ step.1, step.2)
              else
                let pinned := pinnedOf verJ
                let pre := probe ++
                  [Event.msg (.installing pkg venvName), Event.pipInstall venvName pkg pinned]
                if w.installOk venvName pkg pinned then
                  let step := installLoop w venvNames ignoreInfo ignoreErrors rest
                  (pre ++ Event.msg (.installedOk pkg venvName) :: step.1, step.2)
                else
                  (pre ++ (if ignoreErrors then [] else [Event.msg (.errInstall pkg venvName)]),
                   .aborted)
            else installLoop w venvNames ignoreInfo ignoreErrors rest
          | .arr _ => ([], .raised .typeError)
          | .obj _ => ([], .raised .typeError)
          | _ => installLoop w venvNames ignoreInfo ignoreErrors rest

/-- uber.py lines 124-128 (and 50-54): first environment in declared order
whose `main` field is truthy; `AttributeError` on a non-dict entry. -/
def findMainVenv : List (String × JSON) → Except PyExc (Option String)
  | [] => .ok none
  | (venvName, venvConfig) :: rest =>
    match pyGet venvConfig "main" (.bool false) with
    | .error e => .error e
    | .ok m => if truthy m then .ok (some venvName) else findMainVenv rest

/-- uber.py lines 131-146: activate the main venv and run the entry point in
a shell (`"<activate>" && python "<source>"`, platform-dependent activation
path); on nonzero exit print Error [5] unless `ignore.errors`. -/
def launchStep (w : World) (ignoreErrors : Bool) (mainVenv : String) (source : JSON) :
    List Event :=
  Event.launch w.isWindows mainVenv source ::
    (if w.launchOk mainVenv source then []
     else if ignoreErrors then [] else [Event.msg .errRunProject])

/-- uber.py lines 124-149: the launch phase after a completed install loop.
`if main_venv:` is a truthiness test, so an empty-string venv name is
treated like a missing main venv (Error [6] unless `ignore.errors`). -/
def launchPhase (w : World) (ignoreErrors : Bool) (projectSource : JSON)
    (mo : Option String) : List Event :=
  match mo with
  | some mainVenv =>
    if mainVenv = "" then (if ignoreErrors then [] else [Event.msg .errNoMainVenv])
    else launchStep w ignoreErrors mainVenv projectSource
  | none => if ignoreErrors then [] else [Event.msg .errNoMainVenv]

/-- The observable outcome of one `run_command` call: the emitted events and
the uncaught Python exception, if one escaped. -/
structure RunResult where
  events : List Event
  exc : Option PyExc

/-- uber.py lines 75-149: the pipeline after the configuration reads —
create loop, install loop, main-venv scan, launch. -/
def runPipeline (cfg : RunConfigView) (w : World) : RunResult :=
  match pyIterKeys cfg.venvConfigs with
  | .error e => ⟨[], some e⟩
  | .ok venvNames =>
    match createLoop w cfg.ignoreInfoFlag cfg.ignoreErrorsFlag venvNames with
    | (createEvs, false) => ⟨createEvs, none⟩
    | (createEvs, true) =>
      match pyObjItems cfg.dependencies with
      | .error e => ⟨createEvs, some e⟩
      | .ok depItems =>
        match installLoop w venvNames cfg.ignoreInfoFlag cfg.ignoreErrorsFlag depItems with
        | (instEvs, .raised e) => ⟨createEvs ++ instEvs, some e⟩
        | (instEvs, .aborted) => ⟨createEvs ++ instEvs, none⟩
        | (instEvs, .completed) =>
          match pyObjItems cfg.venvConfigs with
          | .error e => ⟨createEvs ++ instEvs, some e⟩
          | .ok venvEntries =>
            match findMainVenv venvEntries with
            | .error e => ⟨createEvs ++ instEvs, some e⟩
            | .ok mo =>
              ⟨createEvs ++ instEvs ++
                launchPhase w cfg.ignoreErrorsFlag cfg.projectSource mo, none⟩

/-- uber.py lines 62-149: `run_command(project_config, uber_config)`.
A falsy project config (failed load, or a loaded falsy value such as `{}`)
returns immediately with no output (line 64-65). -/
def run_command (projectConfig uberConfig : Option JSON) (w : World) : RunResult :=
  if truthyOpt projectConfig then
    match projectConfig with
    | some pc =>
      match readRunConfig pc uberConfig with
      | .error e => ⟨[], some e⟩
      | .ok cfg => runPipeline cfg w
    | none => ⟨[], none⟩
  else ⟨[], none⟩

/-- The lines `info_command` prints (uber.py lines 56-60), carrying the
interpolated values. -/
inductive InfoLine where
  | projectName (v : JSON)
  | projectSource (v : JSON)
  | versionLine (v : JSON)
  | mainVenv (venv : String)

/-- uber.py lines 39-60: `info_command(project_config)`.  All dictionary
reads precede all prints, so on a dynamic error nothing has been printed. -/
def info_command (projectConfig : Option JSON) : Except PyExc (List InfoLine) :=
  if truthyOpt projectConfig then
    match projectConfig with
    | some pc =>
      match pyGet pc "project-info" (.obj []) with
      | .error e => .error e
      | .ok projectInfo =>
        match pyGet projectInfo "project-name" (.str "unknown_project") with
        | .error e => .error e
        | .ok pname =>
          match pyGet projectInfo "project-source" (.str "main.py") with
          | .error e => .error e
          | .ok psource =>
            match pyGet projectInfo "version" (.str "1.0") with
            | .error e => .error e
            | .ok pversion =>
              match pyGet pc "venv-configs" (.obj []) with
              | .error e => .error e
              | .ok venvConfigs =>
                match pyObjItems venvConfigs with
                | .error e => .error e
                | .ok venvEntries =>
                  match findMainVenv venvEntries with
                  | .error e => .error e
                  | .ok mo =>
                    .ok ([InfoLine.projectName pname, InfoLine.projectSource psource,
                          InfoLine.versionLine pversion] ++
                         (match mo with
                          | some mv => if mv = "" then [] else [InfoLine.mainVenv mv]
                          | none => []))
    | none => .ok []
  else .ok []

/-- The subcommand selected on the command line (uber.py lines 167-172). -/
inductive Cmd where
  | infoCmd
  | runCmd
  | noCmd
deriving DecidableEq, Repr

/-- The observable outcome of one whole invocation of `main`:
info output, run events, whether usage help was printed, and the uncaught
exception if one escaped. -/
structure ProgResult where
  infoLines : List InfoLine
  runEvents : List Event
  printedHelp : Bool
  exc : Option PyExc

/-- uber.py lines 167-172: the dispatch in `main` after both configs were loaded
(the loaders always run, for every subcommand; a failed load yields
`none`). -/
def dispatch (cmd : Cmd) (uberConfig projectConfig : Option JSON) (w : World) : ProgResult :=
  match cmd with
  | .infoCmd =>
    match info_command projectConfig with
    | .ok lines => ⟨lines, [], false, none⟩
    | .error e => ⟨[], [], false, some e⟩
  | .runCmd =>
    let r := run_command projectConfig uberConfig w
    ⟨[], r.events, false, r.exc⟩
  | .noCmd => ⟨[], [], true, none⟩

/-- Process exit status of the `run` path: Python exits 0 on a normal return
from `main` and nonzero (1) on an uncaught exception; `run_command` never
calls `sys.exit`. -/
def exitCode (r : RunResult) : Nat :=
  match r.exc with
  | none => 0
  | some _ => 1

/-- Remove every binding of one key from an object field list. -/
def removeField : List (String × JSON) → String → List (String × JSON)
  | [], _ => []
  | (k, v) :: rest, key =>
    if k = key then removeField rest key else (k, v) :: removeField rest key

/-- Remove one field from a JSON object (identity on non-objects). -/
def eraseField (j : JSON) (key : String) : JSON :=
  match j with
  | .obj fields => .obj (removeField fields key)
  | _ => j

/-- Erase the `ignore.warnings` field of a loaded tool config: two tool
configs "differ only in the value of `ignore.warnings`" exactly when this
normalization makes them equal. -/
def eraseIgnoreWarnings (u : Option JSON) : Option JSON :=
  match u with
  | some (.obj fields) =>
    some (.obj (fields.map (fun kv =>
      if kv.1 = "ignore" then (kv.1, eraseField kv.2 "warnings") else kv)))
  | other => other

/-! ### Concrete fixtures used by witnesses and counterexamples -/

/-- A world where every child process succeeds (POSIX host). -/
def wAllOk : World := ⟨false, fun _ => true, fun _ _ => true, fun _ _ _ => true, fun _ _ => true⟩

/-- A world where every child process fails (POSIX host). -/
def wAllFail : World :=
  ⟨false, fun _ => false, fun _ _ => false, fun _ _ _ => false, fun _ _ => false⟩

/-- A world where creating `env-b` fails and everything else succeeds. -/
def wFailEnvB : World :=
  ⟨false, fun n => n != "env-b", fun _ _ => true, fun _ _ _ => true, fun _ _ => true⟩

/-- A world where venv creation succeeds but the package is absent and its
installation fails. -/
def wInstallFail : World :=
  ⟨false, fun _ => true, fun _ _ => false, fun _ _ _ => false, fun _ _ => true⟩

/-- A loaded but empty tool config (`{}`): all `ignore` flags default to
false. -/
def uberEmpty : Option JSON := some (.obj [])

/-- Project config with a single main environment `env-a` and no
dependencies. -/
def pcMainOnly : JSON := .obj [("venv-configs", .obj [("env-a", .obj [("main", .bool true)])])]

/-- Project config declaring `env-a` then `env-b` (no main flag). -/
def pcTwoEnvs : JSON := .obj [("venv-configs", .obj [("env-a", .obj []), ("env-b", .obj [])])]

/-- Project config with a main environment and one pinned dependency. -/
def pcOneDep : JSON :=
  .obj [("venv-configs", .obj [("env-a", .obj [("main", .bool true)])]),
        ("dependencies", .obj [("requests", .obj [("venv", .str "env-a"),
                                                  ("version", .str "2.31.0")])])]

/-- Project config with a main environment and one unpinned dependency. -/
def pcDepNoVersion : JSON :=
  .obj [("venv-configs", .obj [("env-a", .obj [("main", .bool true)])]),
        ("dependencies", .obj [("requests", .obj [("venv", .str "env-a")])])]

/-- Project config declaring a `test-venv` entry after `env-a`. -/
def pcWithTestVenv : JSON :=
  .obj [("venv-configs", .obj [("env-a", .obj [("main", .bool true)]), ("test-venv", .obj [])])]

/-- Project config whose only environment carries no `main` flag. -/
def pcNoMain : JSON := .obj [("venv-configs", .obj [("env-a", .obj [])])]

/-- What one dependency entry contributes to the install loop: some events
followed by the rest of the loop, an aborting failure, or a raised dynamic
error (which emits nothing). -/
inductive StepRes where
  | cont (evs : List Event)
  | abortWith (evs : List Event)
  | raiseExc (e : PyExc)

/-- The contribution of a single dependency entry (one iteration of uber.py
lines 92-121), used to state composition lemmas about `installLoop`. -/
def installStep (w : World) (ns : List String) (ii ie : Bool) (pkg : String)
    (details : JSON) : StepRes :=
  match pyGet details "venv" .null with
  | .error e => .raiseExc e
  | .ok venvJ =>
    match pyGet details "version" .null with
    | .error e => .raiseExc e
    | .ok verJ =>
      if truthy venvJ = false then .cont []
      else
        match venvJ with
        | .str venvName =>
          if ns.contains venvName then
            if w.pipShowOk venvName pkg then
              .cont ([Event.pipShow venvName pkg] ++
                (if ii then [] else [Event.msg (.infoAlreadyInstalled pkg venvName)]))
            else
              let pinned := pinnedOf verJ
              let pre := [Event.pipShow venvName pkg, Event.msg (.installing pkg venvName),
                          Event.pipInstall venvName pkg pinned]
              if w.installOk venvName pkg pinned then
                .cont (pre ++ [Event.msg (.installedOk pkg venvName)])
              else
                .abortWith (pre ++ (if ie then [] else [Event.msg (.errInstall pkg venvName)]))
          else .cont []
        | .arr _ => .raiseExc .typeError
        | .obj _ => .raiseExc .typeError
        | _ => .cont []

/-! ### Structural lemmas about the environment-creation loop -/

/-- Every event the creation loop emits concerns a declared, non-reserved
environment, except for the `test-venv` skip notice, which appears only when
`ignore.info` is unset; a creation error line appears only for a name whose
creation failed and only when `ignore.errors` is unset. -/
theorem createLoop_events_shape (w : World) (ii ie : Bool) (ns : List String) :
    ∀ e ∈ (createLoop w ii ie ns).1,
      (∃ v, v ∈ ns ∧ v ≠ "test-venv" ∧
        (e = Event.createEnv v ∨ e = Event.msg (.creatingEnv v) ∨
         e = Event.msg (.createdEnv v) ∨
         (e = Event.msg (.errCreateEnv v) ∧ w.createEnvOk v = false ∧ ie = false))) ∨
      (e = Event.msg .infoSkipTestVenv ∧ ii = false ∧ "test-venv" ∈ ns) := by
  induction ns with
  | nil => simp [createLoop]
  | cons n rest ih =>
    intro e he
    by_cases hn : n = "test-venv"
    · subst hn
      simp only [createLoop, if_pos rfl] at he
      rcases List.mem_append.mp he with h1 | h2
      · cases hii : ii
        · rw [hii] at h1
          simp only [if_neg Bool.false_ne_true] at h1
          have h1e : e = Event.msg .infoSkipTestVenv := by simpa using h1
          exact Or.inr ⟨h1e, rfl, List.mem_cons_self _ _⟩
        · rw [hii] at h1
          simp at h1
      · rcases ih e h2 with ⟨v, hv, hvne, hcase⟩ | ⟨h1, hiif, h3⟩
        · exact Or.inl ⟨v, List.mem_cons_of_mem _ hv, hvne, hcase⟩
        · exact Or.inr ⟨h1, hiif, List.mem_cons_of_mem _ h3⟩
    · simp only [createLoop, if_neg hn] at he
      cases hok : w.createEnvOk n
      · rw [hok] at he
        simp only [if_neg Bool.false_ne_true] at he
        rcases List.mem_append.mp he with h1 | h2
        · simp only [List.mem_cons, List.not_mem_nil, or_false] at h1
          rcases h1 with h1 | h1
          · exact Or.inl ⟨n, List.mem_cons_self _ _, hn, Or.inr (Or.inl h1)⟩
          · exact Or.inl ⟨n, List.mem_cons_self _ _, hn, Or.inl h1⟩
        · cases hie : ie
          · rw [hie] at h2
            have h2e : e = Event.msg (.errCreateEnv n) := by simpa using h2
            exact Or.inl ⟨n, List.mem_cons_self _ _, hn, Or.inr (Or.inr (Or.inr ⟨h2e, hok, rfl⟩))⟩
          · rw [hie] at h2
            simp at h2
      · rw [hok] at he
        simp only [if_pos rfl] at he
        rcases List.mem_append.mp he with h1 | h2
        · simp only [List.mem_cons, List.not_mem_nil, or_false] at h1
          rcases h1 with h1 | h1
          · exact Or.inl ⟨n, List.mem_cons_self _ _, hn, Or.inr (Or.inl h1)⟩
          · exact Or.inl ⟨n, List.mem_cons_self _ _, hn, Or.inl h1⟩
        · rcases List.mem_cons.mp h2 with h1 | h3
          · exact Or.inl ⟨n, List.mem_cons_self _ _, hn, Or.inr (Or.inr (Or.inl h1))⟩
          · rcases ih e h3 with ⟨v, hv, hvne, hcase⟩ | ⟨h1, hiif, hmem⟩
            · exact Or.inl ⟨v, List.mem_cons_of_mem _ hv, hvne, hcase⟩
            · exact Or.inr ⟨h1, hiif, List.mem_cons_of_mem _ hmem⟩

/-- When every declared environment is reserved or creates successfully, the
creation loop runs to completion. -/
theorem createLoop_complete (w : World) (ii ie : Bool) (ns : List String)
    (hok : ∀ n ∈ ns, n = "test-venv" ∨ w.createEnvOk n = true) :
    (createLoop w ii ie ns).2 = true := by
  induction ns with
  | nil => simp [createLoop]
  | cons n rest ih =>
    have hrest : ∀ m ∈ rest, m = "test-venv" ∨ w.createEnvOk m = true :=
      fun m hm => hok m (List.mem_cons_of_mem _ hm)
    by_cases hn : n = "test-venv"
    · simp [createLoop, hn, ih hrest]
    · rcases hok n (List.mem_cons_self _ _) with h | h
      · exact absurd h hn
      · simp [createLoop, hn, h, ih hrest]

/-- When the creation loop completes, a creation event was issued for every
declared non-reserved environment (there is no presence check: creation is
invoked unconditionally). -/
theorem createLoop_mem_create (w : World) (ii ie : Bool) (ns : List String)
    (hok : ∀ n ∈ ns, n = "test-venv" ∨ w.createEnvOk n = true) :
    ∀ n ∈ ns, n ≠ "test-venv" → Event.createEnv n ∈ (createLoop w ii ie ns).1 := by
  induction ns with
  | nil => simp
  | cons m rest ih =>
    have hrest : ∀ k ∈ rest, k = "test-venv" ∨ w.createEnvOk k = true :=
      fun k hk => hok k (List.mem_cons_of_mem _ hk)
    intro n hn hne
    rcases List.mem_cons.mp hn with h | h
    · subst h
      rcases hok n (List.mem_cons_self _ _) with h | h
      · exact absurd h hne
      · simp [createLoop, hne, h]
    · by_cases hm : m = "test-venv"
      · simp only [createLoop, if_pos hm]
        exact List.mem_append.mpr (Or.inr (ih hrest n h hne))
      · rcases hok m (List.mem_cons_self _ _) with hh | hh
        · exact absurd hh hm
        · simp only [createLoop, if_neg hm, if_pos hh]
          refine List.mem_append.mpr (Or.inr ?_)
          exact List.mem_cons_of_mem _ (ih hrest n h hne)

/-- The first failing creation aborts the loop: the emitted events are those
of the successful prefix, the announcement and creation attempt for the
failing name, and — unless `ignore.errors` — its error line. -/
theorem createLoop_abort (w : World) (ii ie : Bool) (pre post : List String) (bad : String)
    (hpre : ∀ n ∈ pre, n = "test-venv" ∨ w.createEnvOk n = true)
    (hbad1 : bad ≠ "test-venv") (hbad2 : w.createEnvOk bad = false) :
    createLoop w ii ie (pre ++ bad :: post) =
      ((createLoop w ii ie pre).1 ++ [Event.msg (.creatingEnv bad), Event.createEnv bad] ++
        (if ie then [] else [Event.msg (.errCreateEnv bad)]), false) := by
  induction pre with
  | nil => simp [createLoop, hbad1, hbad2]
  | cons n rest ih =>
    have hrest : ∀ m ∈ rest, m = "test-venv" ∨ w.createEnvOk m = true :=
      fun m hm => hpre m (List.mem_cons_of_mem _ hm)
    by_cases hn : n = "test-venv"
    · simp [createLoop, hn, ih hrest, List.append_assoc]
    · rcases hpre n (List.mem_cons_self _ _) with h | h
      · exact absurd h hn
      · simp [createLoop, hn, h, ih hrest, List.append_assoc]

/-- When `ignore.info` is unset and the loop reaches a `test-venv` entry
(no earlier creation failed), the skip notice is emitted. -/
theorem createLoop_skip_mem (w : World) (ie : Bool) (pre post : List String)
    (hpre : ∀ n ∈ pre, n = "test-venv" ∨ w.createEnvOk n = true) :
    Event.msg .infoSkipTestVenv ∈ (createLoop w false ie (pre ++ "test-venv" :: post)).1 := by
  induction pre with
  | nil => simp [createLoop]
  | cons n rest ih =>
    have hrest : ∀ m ∈ rest, m = "test-venv" ∨ w.createEnvOk m = true :=
      fun m hm => hpre m (List.mem_cons_of_mem _ hm)
    by_cases hn : n = "test-venv"
    · simp only [createLoop, List.cons_append, if_pos hn]
      exact List.mem_append.mpr (Or.inr (ih hrest))
    · rcases hpre n (List.mem_cons_self _ _) with h | h
      · exact absurd h hn
      · simp only [createLoop, List.cons_append, List.nil_append, if_neg hn, if_pos h]
        exact List.mem_cons_of_mem _ (List.mem_cons_of_mem _ (List.mem_cons_of_mem _ (ih hrest)))

/-! ### Structural lemmas about the dependency-installation loop -/

/-- Every event the install loop emits is a pip probe, an install run (which
only happens after a failed presence probe), or one of its four message
kinds; the already-installed notice appears only when `ignore.info` is unset
and the install error line only when `ignore.errors` is unset. -/
theorem installLoop_events_shape (w : World) (ns : List String) (ii ie : Bool) :
    ∀ items : List (String × JSON), ∀ e ∈ (installLoop w ns ii ie items).1,
      (∃ v p, e = Event.pipShow v p) ∨
      (∃ v p pin, e = Event.pipInstall v p pin ∧ w.pipShowOk v p = false) ∨
      (∃ p v, e = Event.msg (.infoAlreadyInstalled p v) ∧ ii = false) ∨
      (∃ p v, e = Event.msg (.installing p v)) ∨
      (∃ p v, e = Event.msg (.installedOk p v)) ∨
      (∃ p v, e = Event.msg (.errInstall p v) ∧ ie = false) := by
  intro items
  induction items with
  | nil => simp [installLoop]
  | cons pd rest ih =>
    obtain ⟨pkg, details⟩ := pd
    intro e he
    simp only [installLoop] at he
    cases hv : pyGet details "venv" JSON.null with
    | error ex => simp only [hv] at he; simp at he
    | ok venvJ =>
      simp only [hv] at he
      cases hver : pyGet details "version" JSON.null with
      | error ex => simp only [hver] at he; simp at he
      | ok verJ =>
        simp only [hver] at he
        by_cases ht : truthy venvJ = false
        · rw [if_pos ht] at he
          exact ih e he
        · rw [if_neg ht] at he
          cases venvJ with
          | str s =>
            simp only [] at he
            by_cases hmem : ns.contains s = true
            · rw [if_pos hmem] at he
              cases hpr : w.pipShowOk s pkg with
              | true =>
                rw [if_pos hpr] at he
                simp only [List.cons_append, List.nil_append, List.mem_cons] at he
                rcases he with he | he
                · exact Or.inl ⟨s, pkg, he⟩
                · rcases List.mem_append.mp he with h1 | h2
                  · cases hii : ii
                    · rw [hii] at h1
                      simp only [if_neg Bool.false_ne_true, List.mem_singleton] at h1
                      exact Or.inr (Or.inr (Or.inl ⟨pkg, s, h1, rfl⟩))
                    · rw [hii] at h1; simp at h1
                  · exact ih e h2
              | false =>
                rw [if_neg (by simp [hpr])] at he
                cases hinst : w.installOk s pkg (pinnedOf verJ) with
                | true =>
                  rw [if_pos hinst] at he
                  simp only [List.cons_append, List.nil_append, List.mem_cons] at he
                  rcases he with he | he | he | he | he
                  · exact Or.inl ⟨s, pkg, he⟩
                  · exact Or.inr (Or.inr (Or.inr (Or.inl ⟨pkg, s, he⟩)))
                  · exact Or.inr (Or.inl ⟨s, pkg, pinnedOf verJ, he, hpr⟩)
                  · exact Or.inr (Or.inr (Or.inr (Or.inr (Or.inl ⟨pkg, s, he⟩))))
                  · exact ih e he
                | false =>
                  rw [if_neg (by simp [hinst])] at he
                  simp only [List.cons_append, List.nil_append, List.mem_cons] at he
                  rcases he with he | he | he | he
                  · exact Or.inl ⟨s, pkg, he⟩
                  · exact Or.inr (Or.inr (Or.inr (Or.inl ⟨pkg, s, he⟩)))
                  · exact Or.inr (Or.inl ⟨s, pkg, pinnedOf verJ, he, hpr⟩)
                  · cases hie : ie
                    · rw [hie] at he
                      simp only [if_neg Bool.false_ne_true, List.mem_singleton] at he
                      exact Or.inr (Or.inr (Or.inr (Or.inr (Or.inr ⟨pkg, s, he, rfl⟩))))
                    · rw [hie] at he; simp at he
            · rw [if_neg hmem] at he
              exact ih e he
          | arr elems => simp at he
          | obj fields => simp at he
          | null => simp only [] at he; exact ih e he
          | bool b => simp only [] at he; exact ih e he
          | num n => simp only [] at he; exact ih e he

/-- The install loop on a nonempty list is the contribution of its first entry
followed (in the `cont` case) by the loop on the remaining entries. -/
theorem installLoop_cons_eq (w : World) (ns : List String) (ii ie : Bool) (pkg : String)
    (details : JSON) (rest : List (String × JSON)) :
    installLoop w ns ii ie ((pkg, details) :: rest) =
      (match installStep w ns ii ie pkg details with
       | .cont evs => (evs ++ (installLoop w ns ii ie rest).1, (installLoop w ns ii ie rest).2)
       | .abortWith evs => (evs, .aborted)
       | .raiseExc e => ([], .raised e)) := by
  simp only [installLoop, installStep]
  cases hv : pyGet details "venv" JSON.null with
  | error ex => simp
  | ok venvJ =>
    simp only []
    cases hver : pyGet details "version" JSON.null with
    | error ex => simp
    | ok verJ =>
      simp only []
      by_cases ht : truthy venvJ = false
      · simp [ht]
      · rw [if_neg ht, if_neg ht]
        cases venvJ with
        | str s =>
          simp only []
          by_cases hmem : ns.contains s = true
          · rw [if_pos hmem, if_pos hmem]
            cases hpr : w.pipShowOk s pkg with
            | true => simp
            | false =>
              cases hinst : w.installOk s pkg (pinnedOf verJ) with
              | true => simp
              | false => simp
          · rw [if_neg hmem, if_neg hmem]; simp
        | arr elems => simp
        | obj fields => simp
        | null => simp
        | bool b => simp
        | num n => simp

/-- Events of a non-halting step: pip probes, installs after a failed probe,
and the three non-error messages — never an install-error line. -/
theorem installStep_cont_events (w : World) (ns : List String) (ii ie : Bool) (pkg : String)
    (details : JSON) (sevs : List Event)
    (h : installStep w ns ii ie pkg details = .cont sevs) :
    ∀ e ∈ sevs, (∃ v p, e = Event.pipShow v p) ∨
      (∃ v p pin, e = Event.pipInstall v p pin ∧ w.pipShowOk v p = false) ∨
      (∃ p v, e = Event.msg (.infoAlreadyInstalled p v)) ∨
      (∃ p v, e = Event.msg (.installing p v)) ∨
      (∃ p v, e = Event.msg (.installedOk p v)) := by
  simp only [installStep] at h
  cases hv : pyGet details "venv" JSON.null with
  | error ex => rw [hv] at h; exact absurd h (by simp)
  | ok venvJ =>
    rw [hv] at h
    simp only [] at h
    cases hver : pyGet details "version" JSON.null with
    | error ex => rw [hver] at h; exact absurd h (by simp)
    | ok verJ =>
      rw [hver] at h
      simp only [] at h
      by_cases ht : truthy venvJ = false
      · rw [if_pos ht] at h
        injection h with h1
        subst h1
        simp
      · rw [if_neg ht] at h
        cases venvJ with
        | str s =>
          simp only [] at h
          by_cases hmem : ns.contains s = true
          · rw [if_pos hmem] at h
            cases hpr : w.pipShowOk s pkg with
            | true =>
              rw [if_pos hpr] at h
              injection h with h1
              subst h1
              intro e he
              rcases List.mem_append.mp he with h1 | h1
              · exact Or.inl ⟨s, pkg, by simpa using h1⟩
              · cases hii : ii
                · rw [hii] at h1
                  simp only [if_neg Bool.false_ne_true, List.mem_singleton] at h1
                  exact Or.inr (Or.inr (Or.inl ⟨pkg, s, h1⟩))
                · rw [hii] at h1; simp at h1
            | false =>
              rw [if_neg (by simp [hpr])] at h
              cases hinst : w.installOk s pkg (pinnedOf verJ) with
              | true =>
                rw [if_pos hinst] at h
                injection h with h1
                subst h1
                intro e he
                simp only [List.mem_append, List.mem_cons, List.not_mem_nil, or_false,
                  List.mem_singleton] at he
                rcases he with (he | he | he) | he
                · exact Or.inl ⟨s, pkg, he⟩
                · exact Or.inr (Or.inr (Or.inr (Or.inl ⟨pkg, s, he⟩)))
                · exact Or.inr (Or.inl ⟨s, pkg, pinnedOf verJ, he, hpr⟩)
                · exact Or.inr (Or.inr (Or.inr (Or.inr ⟨pkg, s, he⟩)))
              | false =>
                rw [if_neg (by simp [hinst])] at h
                exact absurd h (by simp)
          · rw [if_neg hmem] at h
            injection h with h1
            subst h1
            simp
        | arr elems => simp at h
        | obj fields => simp at h
        | null => injection h with h1; subst h1; simp
        | bool b => injection h with h1; subst h1; simp
        | num n => injection h with h1; subst h1; simp

/-- When the package of every pip probe is reported present, a dependency
entry with a dict shape and a string-or-falsy `venv` field never installs
and never halts the loop. -/
theorem installStep_all_present (w : World) (ns : List String) (ii ie : Bool) (pkg : String)
    (details : JSON) (hdet : ∃ kvs, details = JSON.obj kvs)
    (hvf : ∀ vj, pyGet details "venv" JSON.null = .ok vj →
      (∃ s, vj = .str s) ∨ truthy vj = false)
    (hprobe : ∀ v p, w.pipShowOk v p = true) :
    ∃ sevs, installStep w ns ii ie pkg details = .cont sevs := by
  obtain ⟨kvs, hk⟩ := hdet
  subst hk
  simp only [installStep, pyGet]
  rcases hvf ((lookupField kvs "venv").getD JSON.null) (by simp [pyGet]) with ⟨s, hs⟩ | hfalsy
  · rw [hs]
    by_cases hts : truthy (JSON.str s) = false
    · rw [if_pos hts]; exact ⟨[], rfl⟩
    · rw [if_neg hts]
      simp only []
      by_cases hmem : ns.contains s = true
      · rw [if_pos hmem, if_pos (hprobe s pkg)]
        exact ⟨_, rfl⟩
      · rw [if_neg hmem]; exact ⟨[], rfl⟩
  · rw [if_pos hfalsy]
    exact ⟨[], rfl⟩

/-- A completed prefix composes: the loop on `xs ++ ys` emits the prefix
events followed by the loop on `ys`. -/
theorem installLoop_append_completed (w : World) (ns : List String) (ii ie : Bool)
    (xs ys : List (String × JSON)) (evs : List Event)
    (hxs : installLoop w ns ii ie xs = (evs, .completed)) :
    installLoop w ns ii ie (xs ++ ys) =
      (evs ++ (installLoop w ns ii ie ys).1, (installLoop w ns ii ie ys).2) := by
  induction xs generalizing evs with
  | nil =>
    simp only [installLoop] at hxs
    injection hxs with h1 h2
    subst h1
    simp
  | cons pd rest ih =>
    obtain ⟨pkg, details⟩ := pd
    rw [installLoop_cons_eq] at hxs
    rw [List.cons_append, installLoop_cons_eq]
    cases hstep : installStep w ns ii ie pkg details with
    | cont sevs =>
      rw [hstep] at hxs
      simp only [] at hxs
      injection hxs with h1 h2
      subst h1
      have hrest : installLoop w ns ii ie rest =
          ((installLoop w ns ii ie rest).1, LoopExit.completed) := by
        rw [← h2]
      rw [ih _ hrest]
      simp [List.append_assoc]
    | abortWith sevs =>
      rw [hstep] at hxs
      simp only [] at hxs
      injection hxs with h1 h2
      exact absurd h2 (by simp)
    | raiseExc ex =>
      rw [hstep] at hxs
      simp only [] at hxs
      injection hxs with h1 h2
      exact absurd h2 (by simp)

/-- A completed install loop printed no install-error line. -/
theorem installLoop_completed_no_errInstall (w : World) (ns : List String) (ii ie : Bool)
    (xs : List (String × JSON)) (hc : (installLoop w ns ii ie xs).2 = .completed) :
    ∀ p v, Event.msg (.errInstall p v) ∉ (installLoop w ns ii ie xs).1 := by
  induction xs with
  | nil => simp [installLoop]
  | cons pd rest ih =>
    obtain ⟨pkg, details⟩ := pd
    rw [installLoop_cons_eq] at hc ⊢
    cases hstep : installStep w ns ii ie pkg details with
    | cont sevs =>
      rw [hstep] at hc
      simp only [] at hc
      intro p v hmem
      rcases List.mem_append.mp hmem with h1 | h1
      · rcases installStep_cont_events w ns ii ie pkg details sevs hstep _ h1 with
          ⟨_, _, h⟩ | ⟨_, _, _, h, _⟩ | ⟨_, _, h⟩ | ⟨_, _, h⟩ | ⟨_, _, h⟩ <;> simp at h
      · exact ih hc p v h1
    | abortWith sevs => rw [hstep] at hc; simp at hc
    | raiseExc ex => rw [hstep] at hc; simp at hc

/-- When every pip probe reports the package present (and the dependency
entries are schema-shaped), the install loop completes without running a
single install command. -/
theorem installLoop_all_present (w : World) (ns : List String) (ii ie : Bool)
    (xs : List (String × JSON))
    (hdet : ∀ pd ∈ xs, ∃ kvs, pd.2 = JSON.obj kvs)
    (hvf : ∀ pd ∈ xs, ∀ vj, pyGet pd.2 "venv" JSON.null = .ok vj →
      (∃ s, vj = .str s) ∨ truthy vj = false)
    (hprobe : ∀ v p, w.pipShowOk v p = true) :
    (installLoop w ns ii ie xs).2 = .completed ∧
    ∀ v p pin, Event.pipInstall v p pin ∉ (installLoop w ns ii ie xs).1 := by
  induction xs with
  | nil => simp [installLoop]
  | cons pd rest ih =>
    obtain ⟨pkg, details⟩ := pd
    have hdrest : ∀ pd ∈ rest, ∃ kvs, pd.2 = JSON.obj kvs :=
      fun pd hpd => hdet pd (List.mem_cons_of_mem _ hpd)
    have hvrest : ∀ pd ∈ rest, ∀ vj, pyGet pd.2 "venv" JSON.null = .ok vj →
        (∃ s, vj = .str s) ∨ truthy vj = false :=
      fun pd hpd => hvf pd (List.mem_cons_of_mem _ hpd)
    obtain ⟨sevs, hstep⟩ := installStep_all_present w ns ii ie pkg details
      (hdet _ (List.mem_cons_self _ _)) (hvf _ (List.mem_cons_self _ _)) hprobe
    rw [installLoop_cons_eq, hstep]
    simp only []
    obtain ⟨ih1, ih2⟩ := ih hdrest hvrest
    refine ⟨ih1, ?_⟩
    intro v p pin hmem
    rcases List.mem_append.mp hmem with h1 | h1
    · rcases installStep_cont_events w ns ii ie pkg details sevs hstep _ h1 with
        ⟨_, _, h⟩ | ⟨v2, p2, _, h, hpr⟩ | ⟨_, _, h⟩ | ⟨_, _, h⟩ | ⟨_, _, h⟩
      · simp at h
      · exact absurd (hprobe v2 p2) (by simp [hpr])
      · simp at h
      · simp at h
      · simp at h
    · exact ih2 v p pin h1

/-! ### Lemmas about the main-venv scan, the launch phase and the pipeline -/

/-- When no (dict-shaped) environment entry has a truthy `main` field, the
scan finds nothing and raises nothing. -/
theorem findMainVenv_none (entries : List (String × JSON))
    (hshape : ∀ nc ∈ entries, ∃ kvs, nc.2 = JSON.obj kvs)
    (hnomain : ∀ nc ∈ entries, ∀ m, pyGet nc.2 "main" (.bool false) = .ok m →
      truthy m = false) :
    findMainVenv entries = .ok none := by
  induction entries with
  | nil => rfl
  | cons nc rest ih =>
    obtain ⟨n, cfgJ⟩ := nc
    obtain ⟨kvs, hk⟩ := hshape _ (List.mem_cons_self _ _)
    simp only at hk
    subst hk
    have hm := hnomain _ (List.mem_cons_self _ _) ((lookupField kvs "main").getD (.bool false))
      (by simp [pyGet])
    simp only [findMainVenv, pyGet]
    rw [if_neg (by simp [hm])]
    exact ih (fun nc h => hshape nc (List.mem_cons_of_mem _ h))
      (fun nc h => hnomain nc (List.mem_cons_of_mem _ h))

/-- The launch phase only emits a launch attempt, a launch-error line, or the
missing-main error line. -/
theorem launchPhase_events (w : World) (ie : Bool) (src : JSON) (mo : Option String) :
    ∀ e ∈ launchPhase w ie src mo,
      (∃ b mv s, e = Event.launch b mv s) ∨ e = Event.msg .errRunProject ∨
      e = Event.msg .errNoMainVenv := by
  intro e he
  cases mo with
  | none =>
    simp only [launchPhase] at he
    cases ie
    · simp only [if_neg Bool.false_ne_true, List.mem_singleton] at he
      exact Or.inr (Or.inr he)
    · simp at he
  | some mv =>
    simp only [launchPhase] at he
    by_cases hmv : mv = ""
    · rw [if_pos hmv] at he
      cases ie
      · simp only [if_neg Bool.false_ne_true, List.mem_singleton] at he
        exact Or.inr (Or.inr he)
      · simp at he
    · rw [if_neg hmv] at he
      simp only [launchStep, List.mem_cons] at he
      rcases he with he | he
      · exact Or.inl ⟨_, _, _, he⟩
      · by_cases hl : w.launchOk mv src = true
        · rw [if_pos hl] at he; simp at he
        · rw [if_neg hl] at he
          cases ie
          · simp only [if_neg Bool.false_ne_true, List.mem_singleton] at he
            exact Or.inr (Or.inl he)
          · simp at he

/-- A truthy, loaded project config with readable top-level fields hands
`run_command` over to the pipeline. -/
theorem run_command_some (pc : JSON) (uber : Option JSON) (w : World) (cfg : RunConfigView)
    (htr : truthy pc = true) (hcfg : readRunConfig pc uber = .ok cfg) :
    run_command (some pc) uber w = runPipeline cfg w := by
  simp [run_command, truthyOpt, htr, hcfg]

/-- Pipeline outcome when a creation failure aborts the create loop. -/
theorem runPipeline_createAbort (cfg : RunConfigView) (w : World)
    (venvFields : List (String × JSON)) (createEvs : List Event)
    (hvc : cfg.venvConfigs = JSON.obj venvFields)
    (hcl : createLoop w cfg.ignoreInfoFlag cfg.ignoreErrorsFlag (venvFields.map Prod.fst) =
      (createEvs, false)) :
    runPipeline cfg w = ⟨createEvs, none⟩ := by
  have h1 : pyIterKeys cfg.venvConfigs = .ok (venvFields.map Prod.fst) := by rw [hvc]; rfl
  simp only [runPipeline, h1, hcl]

/-- Pipeline outcome when an install failure aborts the dependency loop. -/
theorem runPipeline_installAbort (cfg : RunConfigView) (w : World)
    (venvFields : List (String × JSON)) (createEvs instEvs : List Event)
    (depItems : List (String × JSON))
    (hvc : cfg.venvConfigs = JSON.obj venvFields)
    (hcl : createLoop w cfg.ignoreInfoFlag cfg.ignoreErrorsFlag (venvFields.map Prod.fst) =
      (createEvs, true))
    (hdeps : pyObjItems cfg.dependencies = .ok depItems)
    (hil : installLoop w (venvFields.map Prod.fst) cfg.ignoreInfoFlag cfg.ignoreErrorsFlag
      depItems = (instEvs, .aborted)) :
    runPipeline cfg w = ⟨createEvs ++ instEvs, none⟩ := by
  have h1 : pyIterKeys cfg.venvConfigs = .ok (venvFields.map Prod.fst) := by rw [hvc]; rfl
  simp only [runPipeline, h1, hcl, hdeps, hil]

/-- Pipeline outcome when both loops complete: the launch phase runs on the
result of the main-venv scan. -/
theorem runPipeline_completed (cfg : RunConfigView) (w : World)
    (venvFields : List (String × JSON)) (createEvs instEvs : List Event)
    (depItems : List (String × JSON)) (mo : Option String)
    (hvc : cfg.venvConfigs = JSON.obj venvFields)
    (hcl : createLoop w cfg.ignoreInfoFlag cfg.ignoreErrorsFlag (venvFields.map Prod.fst) =
      (createEvs, true))
    (hdeps : pyObjItems cfg.dependencies = .ok depItems)
    (hil : installLoop w (venvFields.map Prod.fst) cfg.ignoreInfoFlag cfg.ignoreErrorsFlag
      depItems = (instEvs, .completed))
    (hmv : findMainVenv venvFields = .ok mo) :
    runPipeline cfg w =
      ⟨createEvs ++ instEvs ++ launchPhase w cfg.ignoreErrorsFlag cfg.projectSource mo,
       none⟩ := by
  have h1 : pyIterKeys cfg.venvConfigs = .ok (venvFields.map Prod.fst) := by rw [hvc]; rfl
  have h2 : pyObjItems cfg.venvConfigs = .ok venvFields := by rw [hvc]; rfl
  simp only [runPipeline, h1, hcl, hdeps, hil, h2, hmv]

/-- Whatever happens after the create loop, the pipeline trace is the
create-loop events followed by events none of which is an environment
creation or one of the create-loop message kinds. -/
theorem runPipeline_tail (cfg : RunConfigView) (w : World)
    (venvFields : List (String × JSON))
    (hvc : cfg.venvConfigs = JSON.obj venvFields) :
    ∃ tailEvs, (runPipeline cfg w).events =
        (createLoop w cfg.ignoreInfoFlag cfg.ignoreErrorsFlag (venvFields.map Prod.fst)).1 ++
          tailEvs ∧
      ∀ e ∈ tailEvs,
        (∃ v p, e = Event.pipShow v p) ∨ (∃ v p pin, e = Event.pipInstall v p pin) ∨
        (∃ b mv s, e = Event.launch b mv s) ∨
        (∃ p v, e = Event.msg (.infoAlreadyInstalled p v)) ∨
        (∃ p v, e = Event.msg (.installing p v)) ∨
        (∃ p v, e = Event.msg (.installedOk p v)) ∨
        (∃ p v, e = Event.msg (.errInstall p v)) ∨
        e = Event.msg .errRunProject ∨ e = Event.msg .errNoMainVenv := by
  have h1 : pyIterKeys cfg.venvConfigs = .ok (venvFields.map Prod.fst) := by rw [hvc]; rfl
  have h2 : pyObjItems cfg.venvConfigs = .ok venvFields := by rw [hvc]; rfl
  have hinst := installLoop_events_shape w (venvFields.map Prod.fst) cfg.ignoreInfoFlag
    cfg.ignoreErrorsFlag
  simp only [runPipeline, h1]
  cases hcl : createLoop w cfg.ignoreInfoFlag cfg.ignoreErrorsFlag (venvFields.map Prod.fst) with
  | mk createEvs ok =>
    cases ok with
    | false => exact ⟨[], by simp, by simp⟩
    | true =>
      cases hdeps : pyObjItems cfg.dependencies with
      | error ex => exact ⟨[], by simp, by simp⟩
      | ok depItems =>
        have hinstD := hinst depItems
        cases hil : installLoop w (venvFields.map Prod.fst) cfg.ignoreInfoFlag
            cfg.ignoreErrorsFlag depItems with
        | mk instEvs ex =>
          rw [hil] at hinstD
          have hinstW : ∀ e ∈ instEvs,
              (∃ v p, e = Event.pipShow v p) ∨ (∃ v p pin, e = Event.pipInstall v p pin) ∨
              (∃ b mv s, e = Event.launch b mv s) ∨
              (∃ p v, e = Event.msg (.infoAlreadyInstalled p v)) ∨
              (∃ p v, e = Event.msg (.installing p v)) ∨
              (∃ p v, e = Event.msg (.installedOk p v)) ∨
              (∃ p v, e = Event.msg (.errInstall p v)) ∨
              e = Event.msg .errRunProject ∨ e = Event.msg .errNoMainVenv := by
            intro e he
            rcases hinstD e he with ⟨v, p, h⟩ | ⟨v, p, pin, h, _⟩ | ⟨p, v, h, _⟩ |
              ⟨p, v, h⟩ | ⟨p, v, h⟩ | ⟨p, v, h, _⟩
            · exact Or.inl ⟨v, p, h⟩
            · exact Or.inr (Or.inl ⟨v, p, pin, h⟩)
            · exact Or.inr (Or.inr (Or.inr (Or.inl ⟨p, v, h⟩)))
            · exact Or.inr (Or.inr (Or.inr (Or.inr (Or.inl ⟨p, v, h⟩))))
            · exact Or.inr (Or.inr (Or.inr (Or.inr (Or.inr (Or.inl ⟨p, v, h⟩)))))
            · exact Or.inr (Or.inr (Or.inr (Or.inr (Or.inr (Or.inr (Or.inl ⟨p, v, h⟩))))))
          cases ex with
          | raised e2 => exact ⟨instEvs, by simp [hil], hinstW⟩
          | aborted => exact ⟨instEvs, by simp [hil], hinstW⟩
          | completed =>
            simp only [hil, h2]
            cases hmv : findMainVenv venvFields with
            | error e2 => exact ⟨instEvs, by simp [hmv], hinstW⟩
            | ok mo =>
              refine ⟨instEvs ++ launchPhase w cfg.ignoreErrorsFlag cfg.projectSource mo,
                by simp [hmv], ?_⟩
              intro e he
              rcases List.mem_append.mp he with he | he
              · exact hinstW e he
              · rcases launchPhase_events w cfg.ignoreErrorsFlag cfg.projectSource mo e he with
                  ⟨b, mv, s, h⟩ | h | h
                · exact Or.inr (Or.inr (Or.inl ⟨b, mv, s, h⟩))
                · exact Or.inr (Or.inr (Or.inr (Or.inr (Or.inr (Or.inr (Or.inr (Or.inl h)))))))
                · exact Or.inr (Or.inr (Or.inr (Or.inr (Or.inr (Or.inr (Or.inr (Or.inr h)))))))

/-! ### Claim C1 -/

/-- C1: if creating some declared environment fails during `run`, the whole
pipeline aborts at that point: no environment after the first failing one is
created, no dependency installation (not even a presence probe) is
attempted, the project is never launched, and the process does not raise;
`ignore.errors` controls only whether the creation-error line is printed,
never the abort itself. -/
theorem claim1_env_create_failure_aborts
    (w : World) (pc : JSON) (uber : Option JSON) (cfg : RunConfigView)
    (venvFields : List (String × JSON)) (pre post : List String) (bad : String)
    (htr : truthy pc = true)
    (hcfg : readRunConfig pc uber = .ok cfg)
    (hvc : cfg.venvConfigs = JSON.obj venvFields)
    (hsplit : venvFields.map Prod.fst = pre ++ bad :: post)
    (hpre : ∀ n ∈ pre, n = "test-venv" ∨ w.createEnvOk n = true)
    (hbad1 : bad ≠ "test-venv") (hbad2 : w.createEnvOk bad = false) :
    (run_command (some pc) uber w).exc = none ∧
    (∀ v p, Event.pipShow v p ∉ (run_command (some pc) uber w).events) ∧
    (∀ v p pin, Event.pipInstall v p pin ∉ (run_command (some pc) uber w).events) ∧
    (∀ b mv s, Event.launch b mv s ∉ (run_command (some pc) uber w).events) ∧
    (∀ v, Event.createEnv v ∈ (run_command (some pc) uber w).events → v ∈ pre ∨ v = bad) ∧
    (Event.msg (.errCreateEnv bad) ∈ (run_command (some pc) uber w).events ↔
      cfg.ignoreErrorsFlag = false) := by
  have habort := createLoop_abort w cfg.ignoreInfoFlag cfg.ignoreErrorsFlag pre post bad
    hpre hbad1 hbad2
  have hcl : createLoop w cfg.ignoreInfoFlag cfg.ignoreErrorsFlag (venvFields.map Prod.fst) =
      ((createLoop w cfg.ignoreInfoFlag cfg.ignoreErrorsFlag pre).1 ++
        [Event.msg (.creatingEnv bad), Event.createEnv bad] ++
        (if cfg.ignoreErrorsFlag then [] else [Event.msg (.errCreateEnv bad)]), false) := by
    rw [hsplit]; exact habort
  have hrun : run_command (some pc) uber w =
      ⟨(createLoop w cfg.ignoreInfoFlag cfg.ignoreErrorsFlag pre).1 ++
        [Event.msg (.creatingEnv bad), Event.createEnv bad] ++
        (if cfg.ignoreErrorsFlag then [] else [Event.msg (.errCreateEnv bad)]), none⟩ := by
    rw [run_command_some pc uber w cfg htr hcfg]
    exact runPipeline_createAbort cfg w venvFields _ hvc hcl
  have hA := createLoop_events_shape w cfg.ignoreInfoFlag cfg.ignoreErrorsFlag pre
  have htail : ∀ e ∈ (if cfg.ignoreErrorsFlag then ([] : List Event)
      else [Event.msg (.errCreateEnv bad)]), e = Event.msg (.errCreateEnv bad) := by
    cases cfg.ignoreErrorsFlag <;> simp
  rw [hrun]
  refine ⟨rfl, ?_, ?_, ?_, ?_, ?_⟩
  · intro v p hmem
    simp only [List.mem_append, List.mem_cons, List.not_mem_nil, or_false] at hmem
    rcases hmem with (h | h | h) | h
    · rcases hA _ h with ⟨v2, _, _, h2 | h2 | h2 | ⟨h2, _, _⟩⟩ | ⟨h2, _, _⟩ <;> simp at h2
    · simp at h
    · simp at h
    · have := htail _ h; simp at this
  · intro v p pin hmem
    simp only [List.mem_append, List.mem_cons, List.not_mem_nil, or_false] at hmem
    rcases hmem with (h | h | h) | h
    · rcases hA _ h with ⟨v2, _, _, h2 | h2 | h2 | ⟨h2, _, _⟩⟩ | ⟨h2, _, _⟩ <;> simp at h2
    · simp at h
    · simp at h
    · have := htail _ h; simp at this
  · intro b mv s hmem
    simp only [List.mem_append, List.mem_cons, List.not_mem_nil, or_false] at hmem
    rcases hmem with (h | h | h) | h
    · rcases hA _ h with ⟨v2, _, _, h2 | h2 | h2 | ⟨h2, _, _⟩⟩ | ⟨h2, _, _⟩ <;> simp at h2
    · simp at h
    · simp at h
    · have := htail _ h; simp at this
  · intro v hmem
    simp only [List.mem_append, List.mem_cons, List.not_mem_nil, or_false] at hmem
    rcases hmem with (h | h | h) | h
    · rcases hA _ h with ⟨v2, hv2, _, h2 | h2 | h2 | ⟨h2, _, _⟩⟩ | ⟨h2, _, _⟩
      · injection h2 with hveq
        exact Or.inl (hveq ▸ hv2)
      · simp at h2
      · simp at h2
      · simp at h2
      · simp at h2
    · simp at h
    · injection h with hveq
      exact Or.inr hveq
    · have := htail _ h; simp at this
  · constructor
    · intro hmem
      simp only [List.mem_append, List.mem_cons, List.not_mem_nil, or_false] at hmem
      rcases hmem with (h | h | h) | h
      · rcases hA _ h with ⟨v2, _, _, h2 | h2 | h2 | ⟨h2, _, hie⟩⟩ | ⟨h2, _, _⟩
        · simp at h2
        · simp at h2
        · simp at h2
        · exact hie
        · simp at h2
      · simp at h
      · simp at h
      · cases hie : cfg.ignoreErrorsFlag
        · rfl
        · rw [hie] at h; simp at h
    · intro hie
      rw [hie]
      simp

/-- Witness for C1 at a concrete project with environments `env-a`, `env-b`
in a world where creating `env-b` fails. -/
theorem claim1_witness :
    (run_command (some pcTwoEnvs) uberEmpty wFailEnvB).exc = none ∧
    Event.pipShow "env-a" "requests" ∉ (run_command (some pcTwoEnvs) uberEmpty wFailEnvB).events ∧
    Event.launch false "env-b" (JSON.str "main.py") ∉
      (run_command (some pcTwoEnvs) uberEmpty wFailEnvB).events ∧
    Event.msg (.errCreateEnv "env-b") ∈ (run_command (some pcTwoEnvs) uberEmpty wFailEnvB).events := by
  obtain ⟨h1, h2, h3, h4, h5, h6⟩ := claim1_env_create_failure_aborts wFailEnvB pcTwoEnvs
    uberEmpty ⟨.obj [("env-a", .obj []), ("env-b", .obj [])], .obj [], .str "main.py",
      false, false⟩
    [("env-a", .obj []), ("env-b", .obj [])] ["env-a"] [] "env-b"
    rfl rfl rfl rfl
    (by intro n hn
        have hn2 : n = "env-a" := by simpa using hn
        subst hn2
        exact Or.inr rfl)
    (by decide) rfl
  exact ⟨h1, h2 "env-a" "requests", h4 false "env-b" (JSON.str "main.py"), h6.mpr rfl⟩

/-! ### Claim C2 -/

/-- C2: if installing some dependency fails during `run` (its presence probe
failed and the install command fails), the pipeline aborts: the trace is
exactly the creation events, the events of the earlier dependencies, and the
failing attempt — no later dependency is touched and the runner never
executes; `ignore.errors` controls only the error line, never the abort. -/
theorem claim2_install_failure_aborts
    (w : World) (pc : JSON) (uber : Option JSON) (cfg : RunConfigView)
    (venvFields : List (String × JSON)) (createEvs preEvs : List Event)
    (pre post : List (String × JSON)) (pkg venvName : String)
    (fields : List (String × JSON)) (verJ : JSON)
    (htr : truthy pc = true)
    (hcfg : readRunConfig pc uber = .ok cfg)
    (hvc : cfg.venvConfigs = JSON.obj venvFields)
    (hcl : createLoop w cfg.ignoreInfoFlag cfg.ignoreErrorsFlag (venvFields.map Prod.fst) =
      (createEvs, true))
    (hdeps : cfg.dependencies = JSON.obj (pre ++ (pkg, JSON.obj fields) :: post))
    (hpreLoop : installLoop w (venvFields.map Prod.fst) cfg.ignoreInfoFlag
      cfg.ignoreErrorsFlag pre = (preEvs, .completed))
    (hv : (lookupField fields "venv").getD JSON.null = JSON.str venvName)
    (hver : (lookupField fields "version").getD JSON.null = verJ)
    (hne : venvName ≠ "")
    (hmem : (venvFields.map Prod.fst).contains venvName = true)
    (hprobe : w.pipShowOk venvName pkg = false)
    (hinstFail : w.installOk venvName pkg (pinnedOf verJ) = false) :
    (run_command (some pc) uber w).events =
      createEvs ++ preEvs ++
        [Event.pipShow venvName pkg, Event.msg (.installing pkg venvName),
         Event.pipInstall venvName pkg (pinnedOf verJ)] ++
        (if cfg.ignoreErrorsFlag then [] else [Event.msg (.errInstall pkg venvName)]) ∧
    (run_command (some pc) uber w).exc = none ∧
    (∀ b mv s, Event.launch b mv s ∉ (run_command (some pc) uber w).events) ∧
    (Event.msg (.errInstall pkg venvName) ∈ (run_command (some pc) uber w).events ↔
      cfg.ignoreErrorsFlag = false) := by
  have hstep : installStep w (venvFields.map Prod.fst) cfg.ignoreInfoFlag cfg.ignoreErrorsFlag
      pkg (JSON.obj fields) =
      .abortWith ([Event.pipShow venvName pkg, Event.msg (.installing pkg venvName),
        Event.pipInstall venvName pkg (pinnedOf verJ)] ++
        (if cfg.ignoreErrorsFlag then [] else [Event.msg (.errInstall pkg venvName)])) := by
    simp only [installStep, pyGet, hv, hver]
    rw [if_neg (by simp [truthy, hne])]
    rw [if_pos hmem]
    rw [if_neg (by simp [hprobe])]
    rw [if_neg (by simp [hinstFail])]
  have hil2 : installLoop w (venvFields.map Prod.fst) cfg.ignoreInfoFlag cfg.ignoreErrorsFlag
      ((pkg, JSON.obj fields) :: post) =
      ([Event.pipShow venvName pkg, Event.msg (.installing pkg venvName),
        Event.pipInstall venvName pkg (pinnedOf verJ)] ++
        (if cfg.ignoreErrorsFlag then [] else [Event.msg (.errInstall pkg venvName)]),
       .aborted) := by
    rw [installLoop_cons_eq, hstep]
  have hilFull : installLoop w (venvFields.map Prod.fst) cfg.ignoreInfoFlag
      cfg.ignoreErrorsFlag (pre ++ (pkg, JSON.obj fields) :: post) =
      (preEvs ++ ([Event.pipShow venvName pkg, Event.msg (.installing pkg venvName),
        Event.pipInstall venvName pkg (pinnedOf verJ)] ++
        (if cfg.ignoreErrorsFlag then [] else [Event.msg (.errInstall pkg venvName)])),
       .aborted) := by
    rw [installLoop_append_completed w (venvFields.map Prod.fst) cfg.ignoreInfoFlag
      cfg.ignoreErrorsFlag pre _ preEvs hpreLoop, hil2]
  have hdeps2 : pyObjItems cfg.dependencies = .ok (pre ++ (pkg, JSON.obj fields) :: post) := by
    rw [hdeps]; rfl
  have hrun : run_command (some pc) uber w =
      ⟨createEvs ++ (preEvs ++ ([Event.pipShow venvName pkg,
        Event.msg (.installing pkg venvName),
        Event.pipInstall venvName pkg (pinnedOf verJ)] ++
        (if cfg.ignoreErrorsFlag then [] else [Event.msg (.errInstall pkg venvName)]))),
       none⟩ := by
    rw [run_command_some pc uber w cfg htr hcfg]
    exact runPipeline_installAbort cfg w venvFields createEvs _ _ hvc hcl hdeps2 hilFull
  have hAshape : ∀ e ∈ createEvs,
      (∃ v, v ∈ venvFields.map Prod.fst ∧ v ≠ "test-venv" ∧
        (e = Event.createEnv v ∨ e = Event.msg (.creatingEnv v) ∨
         e = Event.msg (.createdEnv v) ∨
         (e = Event.msg (.errCreateEnv v) ∧ w.createEnvOk v = false ∧
           cfg.ignoreErrorsFlag = false))) ∨
      (e = Event.msg .infoSkipTestVenv ∧ cfg.ignoreInfoFlag = false ∧
        "test-venv" ∈ venvFields.map Prod.fst) := by
    have h := createLoop_events_shape w cfg.ignoreInfoFlag cfg.ignoreErrorsFlag
      (venvFields.map Prod.fst)
    rw [hcl] at h
    exact h
  have hPshape : ∀ e ∈ preEvs,
      (∃ v p, e = Event.pipShow v p) ∨
      (∃ v p pin, e = Event.pipInstall v p pin ∧ w.pipShowOk v p = false) ∨
      (∃ p v, e = Event.msg (.infoAlreadyInstalled p v) ∧ cfg.ignoreInfoFlag = false) ∨
      (∃ p v, e = Event.msg (.installing p v)) ∨
      (∃ p v, e = Event.msg (.installedOk p v)) ∨
      (∃ p v, e = Event.msg (.errInstall p v) ∧ cfg.ignoreErrorsFlag = false) := by
    have h := installLoop_events_shape w (venvFields.map Prod.fst) cfg.ignoreInfoFlag
      cfg.ignoreErrorsFlag pre
    rw [hpreLoop] at h
    exact h
  have hPnoerr : ∀ p v, Event.msg (.errInstall p v) ∉ preEvs := by
    have h := installLoop_completed_no_errInstall w (venvFields.map Prod.fst)
      cfg.ignoreInfoFlag cfg.ignoreErrorsFlag pre (by rw [hpreLoop])
    rw [hpreLoop] at h
    exact h
  have htail : ∀ e ∈ (if cfg.ignoreErrorsFlag then ([] : List Event)
      else [Event.msg (.errInstall pkg venvName)]),
      e = Event.msg (.errInstall pkg venvName) := by
    cases cfg.ignoreErrorsFlag <;> simp
  rw [hrun]
  refine ⟨by simp [List.append_assoc], rfl, ?_, ?_⟩
  · intro b mv s hmemL
    simp only [List.mem_append, List.mem_cons, List.not_mem_nil, or_false] at hmemL
    rcases hmemL with h | h | (h | h | h) | h
    · rcases hAshape _ h with ⟨v2, _, _, h2 | h2 | h2 | ⟨h2, _, _⟩⟩ | ⟨h2, _, _⟩ <;> simp at h2
    · rcases hPshape _ h with ⟨_, _, h2⟩ | ⟨_, _, _, h2, _⟩ | ⟨_, _, h2, _⟩ | ⟨_, _, h2⟩ |
        ⟨_, _, h2⟩ | ⟨_, _, h2, _⟩ <;> simp at h2
    · simp at h
    · simp at h
    · simp at h
    · have := htail _ h; simp at this
  · constructor
    · intro hmemL
      simp only [List.mem_append, List.mem_cons, List.not_mem_nil, or_false] at hmemL
      rcases hmemL with h | h | (h | h | h) | h
      · rcases hAshape _ h with ⟨v2, _, _, h2 | h2 | h2 | ⟨h2, _, _⟩⟩ | ⟨h2, _, _⟩ <;>
          simp at h2
      · exact absurd h (hPnoerr pkg venvName)
      · simp at h
      · simp at h
      · simp at h
      · cases hie : cfg.ignoreErrorsFlag
        · rfl
        · rw [hie] at h; simp at h
    · intro hie
      rw [hie]
      simp

/-- Witness for C2 at a concrete project with one dependency whose probe and
install both fail. -/
theorem claim2_witness :
    (run_command (some pcOneDep) uberEmpty wInstallFail).exc = none ∧
    Event.launch false "env-a" (JSON.str "main.py") ∉
      (run_command (some pcOneDep) uberEmpty wInstallFail).events ∧
    Event.msg (.errInstall "requests" "env-a") ∈
      (run_command (some pcOneDep) uberEmpty wInstallFail).events := by
  obtain ⟨h1, h2, h3, h4⟩ := claim2_install_failure_aborts wInstallFail pcOneDep uberEmpty
    ⟨.obj [("env-a", .obj [("main", .bool true)])],
     .obj [("requests", .obj [("venv", .str "env-a"), ("version", .str "2.31.0")])],
     .str "main.py", false, false⟩
    [("env-a", .obj [("main", .bool true)])]
    [Event.msg (.creatingEnv "env-a"), Event.createEnv "env-a",
     Event.msg (.createdEnv "env-a")] []
    [] [] "requests" "env-a"
    [("venv", .str "env-a"), ("version", .str "2.31.0")] (.str "2.31.0")
    rfl rfl rfl rfl rfl rfl rfl rfl (by decide) rfl rfl rfl
  exact ⟨h2, h3 false "env-a" (JSON.str "main.py"), h4.mpr rfl⟩

/-! ### Claim C3 -/

/-- C3: the claim says a missing tool config degrades gracefully everywhere.
The `info` path indeed completes (it never touches the tool config), but the
`run` path with a truthy project config evaluates `None.get("ignore", {})`
(uber.py line 70) and raises an uncaught `AttributeError` before doing
anything — it does not behave as if the `ignore` flags were false.  This
theorem exhibits both halves at the concrete failing input. -/
theorem claim3_missing_tool_config_crashes_run :
    run_command (some pcMainOnly) none wAllOk = ⟨[], some .attributeError⟩ ∧
    dispatch .infoCmd none (some pcMainOnly) wAllOk =
      ⟨[InfoLine.projectName (.str "unknown_project"),
        InfoLine.projectSource (.str "main.py"),
        InfoLine.versionLine (.str "1.0"), InfoLine.mainVenv "env-a"], [], false, none⟩ ∧
    dispatch .runCmd none (some pcMainOnly) wAllOk =
      ⟨[], [], false, some .attributeError⟩ := by
  exact ⟨rfl, rfl, rfl⟩

/-! ### Claim C4 -/

/-- C4 counterexample: a `run` invocation in which environment creation
fails (the fatal abort condition occurs — the creation error line is
printed) and yet the process exit status is 0, refuting "exits with a
non-zero status when a fatal abort condition occurs". -/
theorem claim4_counterexample :
    exitCode (run_command (some pcTwoEnvs) uberEmpty wAllFail) = 0 ∧
    Event.msg (.errCreateEnv "env-a") ∈
      (run_command (some pcTwoEnvs) uberEmpty wAllFail).events := by
  have h : run_command (some pcTwoEnvs) uberEmpty wAllFail =
      ⟨[Event.msg (.creatingEnv "env-a"), Event.createEnv "env-a",
        Event.msg (.errCreateEnv "env-a")], none⟩ := rfl
  rw [h]
  exact ⟨rfl, by simp⟩

/-- C4 amended: on the `run` subcommand the process exit status is 0
whether or not a fatal abort (environment-creation or install failure)
occurs — aborts are plain returns; a non-zero status arises only from an
uncaught dynamic error on an off-schema or missing config. -/
theorem claim4_run_exits_zero
    (w : World) (pc : JSON) (uber : Option JSON) (cfg : RunConfigView)
    (venvFields depItems : List (String × JSON))
    (htr : truthy pc = true) (hcfg : readRunConfig pc uber = .ok cfg)
    (hvc : cfg.venvConfigs = JSON.obj venvFields)
    (hdeps : cfg.dependencies = JSON.obj depItems)
    (hnoraise : ∀ e2, (installLoop w (venvFields.map Prod.fst) cfg.ignoreInfoFlag
      cfg.ignoreErrorsFlag depItems).2 ≠ .raised e2)
    (hmain : ∀ e2, findMainVenv venvFields ≠ .error e2) :
    exitCode (run_command (some pc) uber w) = 0 := by
  have h1 : pyIterKeys cfg.venvConfigs = .ok (venvFields.map Prod.fst) := by rw [hvc]; rfl
  have h2 : pyObjItems cfg.venvConfigs = .ok venvFields := by rw [hvc]; rfl
  have h3 : pyObjItems cfg.dependencies = .ok depItems := by rw [hdeps]; rfl
  rw [run_command_some pc uber w cfg htr hcfg]
  simp only [runPipeline, h1, h3]
  cases hcl : createLoop w cfg.ignoreInfoFlag cfg.ignoreErrorsFlag
      (venvFields.map Prod.fst) with
  | mk createEvs ok =>
    cases ok with
    | false => rfl
    | true =>
      cases hil : installLoop w (venvFields.map Prod.fst) cfg.ignoreInfoFlag
          cfg.ignoreErrorsFlag depItems with
      | mk instEvs ex =>
        cases ex with
        | raised e2 =>
          exact absurd (by rw [hil]) (hnoraise e2)
        | aborted => simp [hil, exitCode]
        | completed =>
          simp only [hil, h2]
          cases hmv : findMainVenv venvFields with
          | error e2 => exact absurd hmv (hmain e2)
          | ok mo => simp [hmv, exitCode]

/-- Witness for the amended C4 claim: the creation-failure scenario of the
counterexample satisfies all hypotheses and exits 0. -/
theorem claim4_witness : exitCode (run_command (some pcTwoEnvs) uberEmpty wAllFail) = 0 := by
  exact claim4_run_exits_zero wAllFail pcTwoEnvs uberEmpty
    ⟨.obj [("env-a", .obj []), ("env-b", .obj [])], .obj [], .str "main.py", false, false⟩
    [("env-a", .obj []), ("env-b", .obj [])] []
    rfl rfl rfl rfl (by intro e2 h; exact absurd h (by simp [installLoop]))
    (by intro e2 h; exact absurd h (by simp [findMainVenv, pyGet, lookupField, truthy]))

/-! ### Claim C5 -/

/-- C5 counterexample: a second run in a world where the environment exists
(creation succeeds trivially) and the presence probe of the dependency succeeds
still performs the environment-creation side effect — `run_command` invokes
`python -m venv` unconditionally; there is no presence check for
environments. -/
theorem claim5_counterexample :
    wAllOk.createEnvOk "env-a" = true ∧
    wAllOk.pipShowOk "env-a" "requests" = true ∧
    Event.createEnv "env-a" ∈ (run_command (some pcDepNoVersion) uberEmpty wAllOk).events := by
  have h : run_command (some pcDepNoVersion) uberEmpty wAllOk =
      ⟨[Event.msg (.creatingEnv "env-a"), Event.createEnv "env-a",
        Event.msg (.createdEnv "env-a"), Event.pipShow "env-a" "requests",
        Event.msg (.infoAlreadyInstalled "requests" "env-a"),
        Event.launch false "env-a" (JSON.str "main.py")], none⟩ := rfl
  rw [h]
  exact ⟨rfl, rfl, by simp⟩

/-- C5 amended: on a second run in which every presence probe succeeds, no
install command runs and the launch step is still attempted — but
environment creation is still invoked for every declared non-reserved
environment (creation is unconditional; only dependency presence is
probed). -/
theorem claim5_second_run_reinvokes_creation
    (w : World) (pc : JSON) (uber : Option JSON) (cfg : RunConfigView)
    (venvFields depItems : List (String × JSON)) (mv : String)
    (htr : truthy pc = true) (hcfg : readRunConfig pc uber = .ok cfg)
    (hvc : cfg.venvConfigs = JSON.obj venvFields)
    (hdeps : cfg.dependencies = JSON.obj depItems)
    (hcreate : ∀ n ∈ venvFields.map Prod.fst, n = "test-venv" ∨ w.createEnvOk n = true)
    (hdet : ∀ pd ∈ depItems, ∃ kvs, pd.2 = JSON.obj kvs)
    (hvf : ∀ pd ∈ depItems, ∀ vj, pyGet pd.2 "venv" JSON.null = .ok vj →
      (∃ s, vj = .str s) ∨ truthy vj = false)
    (hprobe : ∀ v p, w.pipShowOk v p = true)
    (hmain : findMainVenv venvFields = .ok (some mv)) (hmv : mv ≠ "") :
    (run_command (some pc) uber w).exc = none ∧
    (∀ v p pin, Event.pipInstall v p pin ∉ (run_command (some pc) uber w).events) ∧
    (∀ n ∈ venvFields.map Prod.fst, n ≠ "test-venv" →
      Event.createEnv n ∈ (run_command (some pc) uber w).events) ∧
    Event.launch w.isWindows mv cfg.projectSource ∈ (run_command (some pc) uber w).events := by
  obtain ⟨hilC, hilNoInst⟩ := installLoop_all_present w (venvFields.map Prod.fst)
    cfg.ignoreInfoFlag cfg.ignoreErrorsFlag depItems hdet hvf hprobe
  have hclC := createLoop_complete w cfg.ignoreInfoFlag cfg.ignoreErrorsFlag
    (venvFields.map Prod.fst) hcreate
  have hcl2 : createLoop w cfg.ignoreInfoFlag cfg.ignoreErrorsFlag (venvFields.map Prod.fst) =
      ((createLoop w cfg.ignoreInfoFlag cfg.ignoreErrorsFlag (venvFields.map Prod.fst)).1,
       true) := by
    rw [← hclC]
  have hil2 : installLoop w (venvFields.map Prod.fst) cfg.ignoreInfoFlag cfg.ignoreErrorsFlag
      depItems =
      ((installLoop w (venvFields.map Prod.fst) cfg.ignoreInfoFlag cfg.ignoreErrorsFlag
        depItems).1, .completed) := by
    rw [← hilC]
  have hdeps2 : pyObjItems cfg.dependencies = .ok depItems := by rw [hdeps]; rfl
  have hrun : run_command (some pc) uber w =
      ⟨(createLoop w cfg.ignoreInfoFlag cfg.ignoreErrorsFlag (venvFields.map Prod.fst)).1 ++
        (installLoop w (venvFields.map Prod.fst) cfg.ignoreInfoFlag cfg.ignoreErrorsFlag
          depItems).1 ++
        launchPhase w cfg.ignoreErrorsFlag cfg.projectSource (some mv), none⟩ := by
    rw [run_command_some pc uber w cfg htr hcfg]
    exact runPipeline_completed cfg w venvFields _ _ depItems (some mv) hvc hcl2 hdeps2
      hil2 hmain
  have hAshape := createLoop_events_shape w cfg.ignoreInfoFlag cfg.ignoreErrorsFlag
    (venvFields.map Prod.fst)
  rw [hrun]
  refine ⟨rfl, ?_, ?_, ?_⟩
  · intro v p pin hmemL
    simp only [List.mem_append] at hmemL
    rcases hmemL with (h | h) | h
    · rcases hAshape _ h with ⟨v2, _, _, h2 | h2 | h2 | ⟨h2, _, _⟩⟩ | ⟨h2, _, _⟩ <;> simp at h2
    · exact hilNoInst v p pin h
    · rcases launchPhase_events w cfg.ignoreErrorsFlag cfg.projectSource (some mv) _ h with
        ⟨b, mv2, s, h2⟩ | h2 | h2 <;> simp at h2
  · intro n hn hne
    exact List.mem_append.mpr (Or.inl (List.mem_append.mpr (Or.inl
      (createLoop_mem_create w cfg.ignoreInfoFlag cfg.ignoreErrorsFlag
        (venvFields.map Prod.fst) hcreate n hn hne))))
  · refine List.mem_append.mpr (Or.inr ?_)
    simp [launchPhase, if_neg hmv, launchStep]

/-- Witness for the amended C5 claim at the concrete input of the
counterexample. -/
theorem claim5_witness :
    (run_command (some pcDepNoVersion) uberEmpty wAllOk).exc = none ∧
    Event.pipInstall "env-a" "requests" none ∉
      (run_command (some pcDepNoVersion) uberEmpty wAllOk).events ∧
    Event.createEnv "env-a" ∈ (run_command (some pcDepNoVersion) uberEmpty wAllOk).events ∧
    Event.launch false "env-a" (JSON.str "main.py") ∈
      (run_command (some pcDepNoVersion) uberEmpty wAllOk).events := by
  obtain ⟨h1, h2, h3, h4⟩ := claim5_second_run_reinvokes_creation wAllOk pcDepNoVersion
    uberEmpty
    ⟨.obj [("env-a", .obj [("main", .bool true)])],
     .obj [("requests", .obj [("venv", .str "env-a")])], .str "main.py", false, false⟩
    [("env-a", .obj [("main", .bool true)])]
    [("requests", .obj [("venv", .str "env-a")])] "env-a"
    rfl rfl rfl rfl
    (by intro n hn; exact Or.inr rfl)
    (by intro pd hpd
        have hpd2 : pd = ("requests", JSON.obj [("venv", JSON.str "env-a")]) := by
          simpa using hpd
        subst hpd2
        exact ⟨[("venv", JSON.str "env-a")], rfl⟩)
    (by intro pd hpd vj hvj
        have hpd2 : pd = ("requests", JSON.obj [("venv", JSON.str "env-a")]) := by
          simpa using hpd
        subst hpd2
        exact Or.inl ⟨"env-a", by simpa [pyGet, lookupField] using hvj.symm⟩)
    (fun v p => rfl)
    rfl (by decide)
  exact ⟨h1, h2 "env-a" "requests" none, h3 "env-a" (by simp) (by decide), h4⟩

/-! ### Claim C6 -/

/-- C6: a dependency entry whose `venv` field is absent (`None` after the
defaulted get), the empty string, or a string that is not a declared
environment name contributes nothing to the install loop — no presence
probe, no install command, no message — for every world and both `ignore`
flags. -/
theorem claim6_unknown_venv_skipped
    (w : World) (ns : List String) (ii ie : Bool) (pkg : String)
    (fields : List (String × JSON)) (rest : List (String × JSON)) (vj : JSON)
    (hv : (lookupField fields "venv").getD JSON.null = vj)
    (hskip : vj = JSON.null ∨ vj = JSON.str "" ∨
      ∃ s, vj = JSON.str s ∧ ns.contains s = false) :
    installLoop w ns ii ie ((pkg, JSON.obj fields) :: rest) =
      installLoop w ns ii ie rest := by
  have hstep : installStep w ns ii ie pkg (JSON.obj fields) = .cont [] := by
    simp only [installStep, pyGet, hv]
    rcases hskip with h | h | ⟨s, h, hns⟩
    · subst h; rfl
    · subst h; rfl
    · subst h
      by_cases hs : s = ""
      · subst hs; rfl
      · rw [if_neg (by simp [truthy, hs])]
        simp only []
        rw [if_neg (by rw [hns]; exact Bool.false_ne_true)]
  rw [installLoop_cons_eq, hstep]
  simp

/-- Witness for C6: a dependency targeting the undeclared venv `missing` is
a perfect no-op. -/
theorem claim6_witness :
    installLoop wAllOk ["env-a"] false false
      [("requests", JSON.obj [("venv", JSON.str "missing")])] =
    installLoop wAllOk ["env-a"] false false [] := by
  exact claim6_unknown_venv_skipped wAllOk ["env-a"] false false "requests"
    [("venv", JSON.str "missing")] [] (JSON.str "missing") rfl
    (Or.inr (Or.inr ⟨"missing", rfl, by decide⟩))

/-! ### Claim C7 -/

/-- C7: when no environment entry has a truthy `main` flag and the pipeline
reaches the launch phase (both loops completed), `run` emits the
missing-main error exactly when `ignore.errors` is unset, performs no launch
attempt, and ends without raising. -/
theorem claim7_no_main_nonfatal
    (w : World) (pc : JSON) (uber : Option JSON) (cfg : RunConfigView)
    (venvFields depItems : List (String × JSON)) (createEvs instEvs : List Event)
    (htr : truthy pc = true) (hcfg : readRunConfig pc uber = .ok cfg)
    (hvc : cfg.venvConfigs = JSON.obj venvFields)
    (hdeps : cfg.dependencies = JSON.obj depItems)
    (hcl : createLoop w cfg.ignoreInfoFlag cfg.ignoreErrorsFlag (venvFields.map Prod.fst) =
      (createEvs, true))
    (hil : installLoop w (venvFields.map Prod.fst) cfg.ignoreInfoFlag cfg.ignoreErrorsFlag
      depItems = (instEvs, .completed))
    (hshape : ∀ nc ∈ venvFields, ∃ kvs, nc.2 = JSON.obj kvs)
    (hnomain : ∀ nc ∈ venvFields, ∀ m, pyGet nc.2 "main" (.bool false) = .ok m →
      truthy m = false) :
    (run_command (some pc) uber w).exc = none ∧
    (∀ b mv s, Event.launch b mv s ∉ (run_command (some pc) uber w).events) ∧
    (Event.msg .errNoMainVenv ∈ (run_command (some pc) uber w).events ↔
      cfg.ignoreErrorsFlag = false) := by
  have hmv := findMainVenv_none venvFields hshape hnomain
  have hdeps2 : pyObjItems cfg.dependencies = .ok depItems := by rw [hdeps]; rfl
  have hrun : run_command (some pc) uber w =
      ⟨createEvs ++ instEvs ++
        launchPhase w cfg.ignoreErrorsFlag cfg.projectSource none, none⟩ := by
    rw [run_command_some pc uber w cfg htr hcfg]
    exact runPipeline_completed cfg w venvFields createEvs instEvs depItems none hvc hcl
      hdeps2 hil hmv
  have hAshape : ∀ e ∈ createEvs,
      (∃ v, v ∈ venvFields.map Prod.fst ∧ v ≠ "test-venv" ∧
        (e = Event.createEnv v ∨ e = Event.msg (.creatingEnv v) ∨
         e = Event.msg (.createdEnv v) ∨
         (e = Event.msg (.errCreateEnv v) ∧ w.createEnvOk v = false ∧
           cfg.ignoreErrorsFlag = false))) ∨
      (e = Event.msg .infoSkipTestVenv ∧ cfg.ignoreInfoFlag = false ∧
        "test-venv" ∈ venvFields.map Prod.fst) := by
    have h := createLoop_events_shape w cfg.ignoreInfoFlag cfg.ignoreErrorsFlag
      (venvFields.map Prod.fst)
    rw [hcl] at h
    exact h
  have hPshape : ∀ e ∈ instEvs,
      (∃ v p, e = Event.pipShow v p) ∨
      (∃ v p pin, e = Event.pipInstall v p pin ∧ w.pipShowOk v p = false) ∨
      (∃ p v, e = Event.msg (.infoAlreadyInstalled p v) ∧ cfg.ignoreInfoFlag = false) ∨
      (∃ p v, e = Event.msg (.installing p v)) ∨
      (∃ p v, e = Event.msg (.installedOk p v)) ∨
      (∃ p v, e = Event.msg (.errInstall p v) ∧ cfg.ignoreErrorsFlag = false) := by
    have h := installLoop_events_shape w (venvFields.map Prod.fst) cfg.ignoreInfoFlag
      cfg.ignoreErrorsFlag depItems
    rw [hil] at h
    exact h
  have htail : ∀ e ∈ launchPhase w cfg.ignoreErrorsFlag cfg.projectSource none,
      e = Event.msg .errNoMainVenv := by
    cases hie : cfg.ignoreErrorsFlag <;> simp [launchPhase, hie]
  rw [hrun]
  refine ⟨rfl, ?_, ?_⟩
  · intro b mv s hmemL
    simp only [List.mem_append] at hmemL
    rcases hmemL with (h | h) | h
    · rcases hAshape _ h with ⟨v2, _, _, h2 | h2 | h2 | ⟨h2, _, _⟩⟩ | ⟨h2, _, _⟩ <;> simp at h2
    · rcases hPshape _ h with ⟨_, _, h2⟩ | ⟨_, _, _, h2, _⟩ | ⟨_, _, h2, _⟩ | ⟨_, _, h2⟩ |
        ⟨_, _, h2⟩ | ⟨_, _, h2, _⟩ <;> simp at h2
    · have := htail _ h; simp at this
  · constructor
    · intro hmemL
      simp only [List.mem_append] at hmemL
      rcases hmemL with (h | h) | h
      · rcases hAshape _ h with ⟨v2, _, _, h2 | h2 | h2 | ⟨h2, _, _⟩⟩ | ⟨h2, _, _⟩ <;>
          simp at h2
      · rcases hPshape _ h with ⟨_, _, h2⟩ | ⟨_, _, _, h2, _⟩ | ⟨_, _, h2, _⟩ | ⟨_, _, h2⟩ |
          ⟨_, _, h2⟩ | ⟨_, _, h2, _⟩ <;> simp at h2
      · cases hie : cfg.ignoreErrorsFlag
        · rfl
        · rw [hie] at h; simp [launchPhase] at h
    · intro hie
      refine List.mem_append.mpr (Or.inr ?_)
      simp [launchPhase, hie]

/-- Witness for C7 on a project whose single environment has no `main`
flag. -/
theorem claim7_witness :
    (run_command (some pcNoMain) uberEmpty wAllOk).exc = none ∧
    Event.launch false "env-a" (JSON.str "main.py") ∉
      (run_command (some pcNoMain) uberEmpty wAllOk).events ∧
    Event.msg .errNoMainVenv ∈ (run_command (some pcNoMain) uberEmpty wAllOk).events := by
  obtain ⟨h1, h2, h3⟩ := claim7_no_main_nonfatal wAllOk pcNoMain uberEmpty
    ⟨.obj [("env-a", .obj [])], .obj [], .str "main.py", false, false⟩
    [("env-a", .obj [])] []
    [Event.msg (.creatingEnv "env-a"), Event.createEnv "env-a",
     Event.msg (.createdEnv "env-a")] []
    rfl rfl rfl rfl rfl rfl
    (by intro nc hnc
        have hnc2 : nc = ("env-a", JSON.obj []) := by simpa using hnc
        subst hnc2
        exact ⟨[], rfl⟩)
    (by intro nc hnc m hm
        have hnc2 : nc = ("env-a", JSON.obj []) := by simpa using hnc
        subst hnc2
        have hm2 : m = JSON.bool false := by simpa [pyGet, lookupField] using hm.symm
        subst hm2
        rfl)
  exact ⟨h1, h2 false "env-a" (JSON.str "main.py"), h3.mpr rfl⟩

/-! ### Claim C8 -/

/-- C8: provisioning never creates an environment named `test-venv`; when the
create loop reaches the `test-venv` entry (no earlier creation failed), the
informational skip line is printed exactly when `ignore.info` is unset. -/
theorem claim8_test_venv_never_created
    (w : World) (pc : JSON) (uber : Option JSON) (cfg : RunConfigView)
    (venvFields : List (String × JSON)) (pre post : List String)
    (htr : truthy pc = true) (hcfg : readRunConfig pc uber = .ok cfg)
    (hvc : cfg.venvConfigs = JSON.obj venvFields)
    (hsplit : venvFields.map Prod.fst = pre ++ "test-venv" :: post)
    (hpre : ∀ n ∈ pre, n = "test-venv" ∨ w.createEnvOk n = true) :
    Event.createEnv "test-venv" ∉ (run_command (some pc) uber w).events ∧
    (Event.msg .infoSkipTestVenv ∈ (run_command (some pc) uber w).events ↔
      cfg.ignoreInfoFlag = false) := by
  have hrun : run_command (some pc) uber w = runPipeline cfg w :=
    run_command_some pc uber w cfg htr hcfg
  obtain ⟨tailEvs, htails, htailshape⟩ := runPipeline_tail cfg w venvFields hvc
  have hAshape := createLoop_events_shape w cfg.ignoreInfoFlag cfg.ignoreErrorsFlag
    (venvFields.map Prod.fst)
  rw [hrun]
  constructor
  · intro hmem
    rw [htails] at hmem
    rcases List.mem_append.mp hmem with h | h
    · rcases hAshape _ h with ⟨v2, _, hvne, h2 | h2 | h2 | ⟨h2, _, _⟩⟩ | ⟨h2, _, _⟩
      · injection h2 with hveq
        exact hvne hveq.symm
      · simp at h2
      · simp at h2
      · simp at h2
      · simp at h2
    · rcases htailshape _ h with ⟨_, _, h2⟩ | ⟨_, _, _, h2⟩ | ⟨_, _, _, h2⟩ | ⟨_, _, h2⟩ |
        ⟨_, _, h2⟩ | ⟨_, _, h2⟩ | ⟨_, _, h2⟩ | h2 | h2 <;> simp at h2
  · constructor
    · intro hmem
      rw [htails] at hmem
      rcases List.mem_append.mp hmem with h | h
      · rcases hAshape _ h with ⟨v2, _, _, h2 | h2 | h2 | ⟨h2, _, _⟩⟩ | ⟨h2, hii, _⟩
        · simp at h2
        · simp at h2
        · simp at h2
        · simp at h2
        · exact hii
      · rcases htailshape _ h with ⟨_, _, h2⟩ | ⟨_, _, _, h2⟩ | ⟨_, _, _, h2⟩ | ⟨_, _, h2⟩ |
          ⟨_, _, h2⟩ | ⟨_, _, h2⟩ | ⟨_, _, h2⟩ | h2 | h2 <;> simp at h2
    · intro hii
      rw [htails]
      refine List.mem_append.mpr (Or.inl ?_)
      rw [hsplit]
      have h := createLoop_skip_mem w cfg.ignoreErrorsFlag pre post hpre
      rw [hii]
      exact h

/-- Witness for C8 on a project declaring `env-a` then `test-venv`, with
info messages enabled. -/
theorem claim8_witness :
    Event.createEnv "test-venv" ∉ (run_command (some pcWithTestVenv) uberEmpty wAllOk).events ∧
    Event.msg .infoSkipTestVenv ∈ (run_command (some pcWithTestVenv) uberEmpty wAllOk).events := by
  obtain ⟨h1, h2⟩ := claim8_test_venv_never_created wAllOk pcWithTestVenv uberEmpty
    ⟨.obj [("env-a", .obj [("main", .bool true)]), ("test-venv", .obj [])], .obj [],
     .str "main.py", false, false⟩
    [("env-a", .obj [("main", .bool true)]), ("test-venv", .obj [])] ["env-a"] []
    rfl rfl rfl rfl
    (by intro n hn
        have hn2 : n = "env-a" := by simpa using hn
        subst hn2
        exact Or.inr rfl)
  exact ⟨h1, h2.mpr rfl⟩

/-! ### Claim C9 -/

/-- C9 counterexample: the empty object `{}` is a successfully loaded
project config whose `project-info` fields are all absent, yet `info` prints
nothing at all — not the three defaulted lines the claim requires — because
`if not project_config` treats the empty dict like a missing config. -/
theorem claim9_counterexample :
    info_command (some (JSON.obj [])) = .ok [] ∧
    info_command (some (JSON.obj [])) ≠
      .ok [InfoLine.projectName (.str "unknown_project"),
           InfoLine.projectSource (.str "main.py"),
           InfoLine.versionLine (.str "1.0")] := by
  refine ⟨rfl, ?_⟩
  intro h
  have h2 : ([] : List InfoLine) = [InfoLine.projectName (.str "unknown_project"),
      InfoLine.projectSource (.str "main.py"), InfoLine.versionLine (.str "1.0")] := by
    injection h
  exact List.noConfusion h2

/-- C9 amended: for every loaded project config that is a non-empty object
(a falsy loaded config is treated like an absent one and prints nothing),
`info` prints the project name, source and version with defaults
`unknown_project`, `main.py` and `1.0` for absent fields, followed by the
first environment in declared order whose `main` flag is truthy, the line
being omitted when the scan finds none. -/
theorem claim9_info_defaults
    (fields : List (String × JSON)) (hne : fields ≠ [])
    (pinfoFields : List (String × JSON))
    (hpinfo : (lookupField fields "project-info").getD (.obj []) = JSON.obj pinfoFields)
    (venvKvs : List (String × JSON))
    (hvc : (lookupField fields "venv-configs").getD (.obj []) = JSON.obj venvKvs)
    (mo : Option String) (hmo : findMainVenv venvKvs = .ok mo) :
    info_command (some (.obj fields)) =
      .ok ([InfoLine.projectName ((lookupField pinfoFields "project-name").getD
              (.str "unknown_project")),
            InfoLine.projectSource ((lookupField pinfoFields "project-source").getD
              (.str "main.py")),
            InfoLine.versionLine ((lookupField pinfoFields "version").getD (.str "1.0"))] ++
           (match mo with
            | some mv => if mv = "" then [] else [InfoLine.mainVenv mv]
            | none => [])) := by
  simp only [info_command]
  rw [if_pos (by simp [truthyOpt, truthy, hne])]
  simp only [pyGet, hpinfo, hvc, pyObjItems, hmo]
  cases mo <;> rfl

/-- Witness for the amended C9 claim: a config with only a `dependencies`
key prints exactly the three default lines and no main-venv line. -/
theorem claim9_witness :
    info_command (some (JSON.obj [("dependencies", JSON.obj [])])) =
      .ok [InfoLine.projectName (.str "unknown_project"),
           InfoLine.projectSource (.str "main.py"),
           InfoLine.versionLine (.str "1.0")] := by
  exact claim9_info_defaults [("dependencies", JSON.obj [])] (by simp) [] rfl [] rfl
    none rfl

/-! ### Claim C10 -/

/-- Removing one key from the fields of an object does not change lookups of
other keys. -/
theorem lookupField_removeField_ne (kvs : List (String × JSON)) (key k : String)
    (hk : k ≠ key) :
    lookupField (removeField kvs key) k = lookupField kvs k := by
  induction kvs with
  | nil => rfl
  | cons kv rest ih =>
    obtain ⟨k1, v1⟩ := kv
    by_cases h1 : k1 = key
    · simp only [removeField, if_pos h1, lookupField]
      rw [if_neg (fun h2 => hk (h2.symm.trans h1)), ih]
    · simp only [removeField, if_neg h1, lookupField]
      by_cases h2 : k1 = k
      · rw [if_pos h2, if_pos h2]
      · rw [if_neg h2, if_neg h2]
        exact ih

/-- Looking up `ignore` in two field lists whose `ignore`-warnings-erased
images agree yields either nothing on both sides or two values that agree
after erasing `warnings`. -/
theorem lookupField_mapIgnore_rel (kvs1 : List (String × JSON)) :
    ∀ kvs2 : List (String × JSON),
    kvs1.map (fun kv => if kv.1 = "ignore" then (kv.1, eraseField kv.2 "warnings") else kv) =
      kvs2.map (fun kv => if kv.1 = "ignore" then (kv.1, eraseField kv.2 "warnings") else kv) →
    (lookupField kvs1 "ignore" = none ∧ lookupField kvs2 "ignore" = none) ∨
    (∃ v1 v2, lookupField kvs1 "ignore" = some v1 ∧ lookupField kvs2 "ignore" = some v2 ∧
      eraseField v1 "warnings" = eraseField v2 "warnings") := by
  induction kvs1 with
  | nil =>
    intro kvs2 h
    cases kvs2 with
    | nil => exact Or.inl ⟨rfl, rfl⟩
    | cons kv rest => simp at h
  | cons kv1 rest1 ih =>
    intro kvs2 h
    cases kvs2 with
    | nil => simp at h
    | cons kv2 rest2 =>
      obtain ⟨k1, v1⟩ := kv1
      obtain ⟨k2, v2⟩ := kv2
      simp only [List.map_cons, List.cons.injEq] at h
      obtain ⟨hhead, htailEq⟩ := h
      by_cases h1 : k1 = "ignore"
      · subst h1
        rw [if_pos rfl] at hhead
        by_cases h2 : k2 = "ignore"
        · subst h2
          rw [if_pos rfl] at hhead
          injection hhead with hkeq hveq
          exact Or.inr ⟨v1, v2, by simp [lookupField], by simp [lookupField], hveq⟩
        · rw [if_neg h2] at hhead
          injection hhead with hkeq hveq
          exact absurd hkeq.symm h2
      · rw [if_neg h1] at hhead
        by_cases h2 : k2 = "ignore"
        · subst h2
          rw [if_pos rfl] at hhead
          injection hhead with hkeq hveq
          exact absurd hkeq h1
        · rw [if_neg h2] at hhead
          injection hhead with hkeq hveq
          subst hkeq
          simp only [lookupField, if_neg h1]
          exact ih rest2 htailEq

/-- The `ignore` reads of two tool configs that differ only in
`ignore.warnings`: both raise (missing or non-dict config), or both succeed
with values that agree after erasing `warnings`. -/
theorem pyGetOpt_ignore_rel (u1 u2 : Option JSON)
    (h : eraseIgnoreWarnings u1 = eraseIgnoreWarnings u2) :
    (pyGetOpt u1 "ignore" (.obj []) = .error .attributeError ∧
     pyGetOpt u2 "ignore" (.obj []) = .error .attributeError) ∨
    (∃ i1 i2, pyGetOpt u1 "ignore" (.obj []) = .ok i1 ∧
      pyGetOpt u2 "ignore" (.obj []) = .ok i2 ∧
      eraseField i1 "warnings" = eraseField i2 "warnings") := by
  cases u1 with
  | none =>
    cases u2 with
    | none => exact Or.inl ⟨rfl, rfl⟩
    | some j2 => cases j2 <;> simp [eraseIgnoreWarnings] at h
  | some j1 =>
    cases u2 with
    | none => cases j1 <;> simp [eraseIgnoreWarnings] at h
    | some j2 =>
      cases j1 with
      | obj f1 =>
        cases j2 with
        | obj f2 =>
          simp only [eraseIgnoreWarnings, Option.some.injEq, JSON.obj.injEq] at h
          rcases lookupField_mapIgnore_rel f1 f2 h with ⟨hl1, hl2⟩ | ⟨v1, v2, hl1, hl2, hrel⟩
          · exact Or.inr ⟨.obj [], .obj [],
              by simp [pyGetOpt, pyGet, hl1], by simp [pyGetOpt, pyGet, hl2], rfl⟩
          · exact Or.inr ⟨v1, v2,
              by simp [pyGetOpt, pyGet, hl1], by simp [pyGetOpt, pyGet, hl2], hrel⟩
        | null => simp [eraseIgnoreWarnings] at h
        | bool b => simp [eraseIgnoreWarnings] at h
        | num n => simp [eraseIgnoreWarnings] at h
        | str s => simp [eraseIgnoreWarnings] at h
        | arr elems => simp [eraseIgnoreWarnings] at h
      | null =>
        cases j2 <;>
          first
          | exact Or.inl ⟨rfl, rfl⟩
          | simp [eraseIgnoreWarnings] at h
      | bool b =>
        cases j2 <;>
          first
          | exact Or.inl ⟨rfl, rfl⟩
          | simp [eraseIgnoreWarnings] at h
      | num n =>
        cases j2 <;>
          first
          | exact Or.inl ⟨rfl, rfl⟩
          | simp [eraseIgnoreWarnings] at h
      | str s =>
        cases j2 <;>
          first
          | exact Or.inl ⟨rfl, rfl⟩
          | simp [eraseIgnoreWarnings] at h
      | arr elems =>
        cases j2 <;>
          first
          | exact Or.inl ⟨rfl, rfl⟩
          | simp [eraseIgnoreWarnings] at h

/-- The configuration reads of `run_command` cannot tell apart two tool
configs that differ only in `ignore.warnings` (the value is read at line 71
and never used). -/
theorem readRunConfig_eq (pc : JSON) (u1 u2 : Option JSON)
    (h : eraseIgnoreWarnings u1 = eraseIgnoreWarnings u2) :
    readRunConfig pc u1 = readRunConfig pc u2 := by
  simp only [readRunConfig]
  cases hA : pyGet pc "venv-configs" (JSON.obj []) with
  | error e => rfl
  | ok vc =>
    simp only []
    cases hB : pyGet pc "dependencies" (JSON.obj []) with
    | error e => rfl
    | ok deps =>
      simp only []
      cases hC : pyGet pc "project-info" (JSON.obj []) with
      | error e => rfl
      | ok pinfo =>
        simp only []
        cases hD : pyGet pinfo "project-source" (JSON.str "main.py") with
        | error e => rfl
        | ok psrc =>
          simp only []
          rcases pyGetOpt_ignore_rel u1 u2 h with ⟨he1, he2⟩ | ⟨i1, i2, ho1, ho2, hrel⟩
          · rw [he1, he2]
          · rw [ho1, ho2]
            simp only []
            cases i1 <;> cases i2
            case obj.obj g1 g2 =>
              simp only [eraseField, JSON.obj.injEq] at hrel
              have herr : lookupField g1 "errors" = lookupField g2 "errors" := by
                rw [← lookupField_removeField_ne g1 "warnings" "errors" (by decide), hrel,
                  lookupField_removeField_ne g2 "warnings" "errors" (by decide)]
              have hinf : lookupField g1 "info" = lookupField g2 "info" := by
                rw [← lookupField_removeField_ne g1 "warnings" "info" (by decide), hrel,
                  lookupField_removeField_ne g2 "warnings" "info" (by decide)]
              simp only [pyGet, herr, hinf]
            all_goals
              first
              | rfl
              | (simp only [eraseField] at hrel; exact absurd hrel (by simp))

/-- C10: two tool configs that differ only in the value of
`ignore.warnings` (equal after erasing that field) make `info`, `run` and
the help path produce identical observable outcomes — output, external
operations and exit behavior — for every subcommand, project config and
world: the flag is read but never consulted. -/
theorem claim10_ignore_warnings_noninterference (u1 u2 : Option JSON)
    (h : eraseIgnoreWarnings u1 = eraseIgnoreWarnings u2)
    (cmd : Cmd) (projectConfig : Option JSON) (w : World) :
    dispatch cmd u1 projectConfig w = dispatch cmd u2 projectConfig w := by
  cases cmd with
  | infoCmd => rfl
  | noCmd => rfl
  | runCmd =>
    simp only [dispatch]
    have hrc : run_command projectConfig u1 w = run_command projectConfig u2 w := by
      cases projectConfig with
      | none => rfl
      | some pc =>
        simp only [run_command]
        rw [readRunConfig_eq pc u1 u2 h]
    rw [hrc]

/-- Witness for C10: flipping `ignore.warnings` between true and false
leaves the outcome of a concrete `run` invocation unchanged. -/
theorem claim10_witness :
    dispatch .runCmd (some (.obj [("ignore", .obj [("warnings", .bool true)])]))
      (some pcMainOnly) wAllOk =
    dispatch .runCmd (some (.obj [("ignore", .obj [("warnings", .bool false)])]))
      (some pcMainOnly) wAllOk := by
  exact claim10_ignore_warnings_noninterference
    (some (.obj [("ignore", .obj [("warnings", .bool true)])]))
    (some (.obj [("ignore", .obj [("warnings", .bool false)])]))
    rfl .runCmd (some pcMainOnly) wAllOk

end Uber
